import Mathlib

/-!
Shallow embedding of `src/app/main.py` (the MSK OneClick FastAPI application)
and proofs about its operation registry, cursor-pull log protocol, stack
reconciliation loop, command runner and the three background runners
(deploy, test, teardown).

Conventions of the embedding:
- Python exceptions are modelled by an `Outcome` value: `.ok` for normal
  return, `.exc msg` for an exception carrying `str(exc)`, and `.hang` for
  a polling loop whose finite observation trace ran out while the real loop
  would still be sleeping and polling (the source loops have no timeout).
- The remote AWS providers (CloudFormation, SSM, Kafka) are modelled by
  environment records whose fields give the result of each provider call,
  in the order the source performs them.
- `OpState` mirrors the `Operation` dataclass, plus two instrumentation
  fields: `progressTrace` records every value taken by `progress` (the
  initial 0 included), and `eventPolls` counts iterations of the
  `describe_stack_events` polling loop, so that claims about observed
  progress sequences and about "no event polls" are statable.
-/

/-- Value stored in an operation's `outputs` dict: the source stores strings
and, for the test action, one list of strings (`messages`). -/
inductive OutVal where
  | str (s : String)
  | strs (l : List String)
deriving DecidableEq, Repr

/-- Mirrors the `Operation` dataclass of `src/app/main.py` (status, progress,
logs, outputs, error, created) with the two instrumentation fields described
in the file header. `created` is the creation time (Python `time.time()`),
modelled as a rational. -/
structure OpState where
  status : String
  progress : Nat
  logs : List String
  outputs : List (String × OutVal)
  error : Option String
  created : ℚ
  progressTrace : List Nat
  eventPolls : Nat
deriving DecidableEq, Repr

/-- `op.logs.append(line)`. -/
def logAppend (s : OpState) (line : String) : OpState :=
  { s with logs := s.logs ++ [line] }

/-- `op.progress = p`, recording the written value in the trace. -/
def setProg (s : OpState) (p : Nat) : OpState :=
  { s with progress := p, progressTrace := s.progressTrace ++ [p] }

/-- The state `_register_operation` creates: `Operation(status="RUNNING",
progress=0)` with empty logs/outputs, no error, created at time `t`. -/
def initial_operation (t : ℚ) : OpState :=
  { status := "RUNNING", progress := 0, logs := [], outputs := [], error := none,
    created := t, progressTrace := [0], eventPolls := 0 }

/-! ### String helpers

The source classifies provider statuses with Python's `in` (substring test),
`str.endswith`, `str.strip`, `str.splitlines`. We implement these over
`List Char` so that all proofs reduce in the kernel. -/

/-- Whether `pat` occurs at the head of `l`. -/
def starts_with_chars : List Char → List Char → Bool
  | _, [] => true
  | [], _ :: _ => false
  | a :: as, b :: bs => a == b && starts_with_chars as bs

/-- Whether `pat` occurs anywhere in `l` (Python `pat in s`). -/
def has_infix_chars (pat : List Char) : List Char → Bool
  | [] => starts_with_chars [] pat
  | a :: as => starts_with_chars (a :: as) pat || has_infix_chars pat as

/-- Python `pat in s` on strings. -/
def strContains (s pat : String) : Bool :=
  has_infix_chars pat.data s.data

/-- Python `s.endswith(pat)`. -/
def strEndsWith (s pat : String) : Bool :=
  starts_with_chars s.data.reverse pat.data.reverse

/-- Whitespace for the purposes of `str.strip` (the characters occurring in
this code base's data). -/
def is_space (c : Char) : Bool :=
  c == ' ' || c == '\t' || c == '\n' || c == '\r'

/-- Python `s.strip()`. -/
def pyStrip (s : String) : String :=
  String.mk (((s.data.dropWhile is_space).reverse.dropWhile is_space).reverse)

/-- Split on newline characters; with the convention that a trailing newline
yields a trailing empty piece (the empty pieces are irrelevant to the source,
which filters blank lines right after splitting). -/
def split_nl_chars : List Char → List (List Char)
  | [] => [[]]
  | c :: rest =>
    let r := split_nl_chars rest
    if c == '\n' then [] :: r
    else (c :: r.headD []) :: r.tail

/-- Python `s.splitlines()` for newline-separated content, up to trailing
blank pieces (which the source filters out). -/
def pySplitlines (s : String) : List String :=
  (split_nl_chars s.data).map String.mk

/-- Python `l[-n:]`. -/
def last_n {α : Type} (n : Nat) (l : List α) : List α :=
  l.drop (l.length - n)

/-! ### Operation registry and the read endpoint -/

/-- `TTL_SECONDS = 30 * 60`. -/
def TTL_SECONDS : ℚ := 30 * 60

/-- `_cleanup_operations`: delete every operation with
`now - op.created > TTL_SECONDS`; i.e. keep exactly those with
`now - op.created <= TTL_SECONDS`. The registry dict is modelled as an
association list. -/
def cleanup_operations (now : ℚ) (reg : List (String × OpState)) :
    List (String × OpState) :=
  reg.filter (fun p => decide (now - p.2.created ≤ TTL_SECONDS))

/-- Python `OPERATIONS.get(op_id)` on the association-list registry. -/
def reg_get (reg : List (String × OpState)) (opId : String) : Option OpState :=
  (reg.find? (fun p => p.1 == opId)).map (fun p => p.2)

/-- Response shape of `GET /api/op/{op_id}`: `outputs` is present only when
the source adds the key to the dict, likewise `error`. -/
structure ReadResp where
  status : String
  progress : Nat
  logs : List String
  cursor : Nat
  outputs : Option (List (String × OutVal))
  error : Option String
deriving DecidableEq, Repr

/-- The response-building part of `api_operation` (lines 395-406):
`logs = op.logs[since:]`, `cursor = since + len(logs)`, `outputs` included
iff `op.status == "SUCCEEDED" and op.outputs`, `error` included iff
`op.error`. `since` is a non-negative cursor, so the Python slice is
`List.drop`. -/
def read_op (op : OpState) (since : Nat) : ReadResp :=
  let logs := op.logs.drop since
  { status := op.status
    progress := op.progress
    logs := logs
    cursor := since + logs.length
    outputs := if op.status == "SUCCEEDED" && !op.outputs.isEmpty then some op.outputs else none
    error := op.error }

/-- `api_operation` end to end: sweep expired operations, look the id up,
404 (`none`) when absent, otherwise the read response. -/
def api_operation (now : ℚ) (reg : List (String × OpState)) (opId : String)
    (since : Nat) : Option ReadResp :=
  match reg_get (cleanup_operations now reg) opId with
  | none => none
  | some op => some (read_op op since)

/-! ### Cursor-replay client model for C1

A client interleaves appends (performed by the operation's writer) with
reads that always pass the previous read's cursor, collecting the returned
batches. -/

/-- One event of the interleaving. -/
inductive PollEvent where
  | append (line : String)
  | read
deriving DecidableEq, Repr

/-- Client-side replay state: the server-side log, the client's cursor and
the concatenation of all batches returned so far. -/
structure PollClient where
  log : List String
  cursor : Nat
  collected : List String
deriving DecidableEq, Repr

/-- An `OpState` whose only interesting field is the log (the read endpoint
uses the other fields only for the status/outputs/error echoes). -/
def log_only_op (log : List String) : OpState :=
  { initial_operation 0 with logs := log }

/-- Apply one interleaving event. -/
def poll_step (c : PollClient) : PollEvent → PollClient
  | .append line => { c with log := c.log ++ [line] }
  | .read =>
    let resp := read_op (log_only_op c.log) c.cursor
    { c with collected := c.collected ++ resp.logs, cursor := resp.cursor }

/-- Run an interleaving from the empty log with cursor 0. -/
def run_poll (evs : List PollEvent) : PollClient :=
  evs.foldl poll_step { log := [], cursor := 0, collected := [] }

/-! ### Stack event tailing (`_poll_stack_events`) and stack steps -/

/-- Result of running a piece of the Python code: normal return, an
exception carrying `str(exc)`, or a polling loop that is still running when
its finite observation trace ends. -/
inductive Outcome (α : Type) where
  | ok (a : α)
  | exc (msg : String)
  | hang
deriving DecidableEq, Repr

/-- One CloudFormation stack event as returned by `describe_stack_events`. -/
structure StackEvent where
  eventId : String
  resourceStatus : String
  logicalResourceId : String
  resourceStatusReason : String
deriving DecidableEq, Repr

/-- What one iteration of the `_poll_stack_events` loop observes: the event
list (provider order, newest first — the source iterates it reversed) and
the stack's own status from `describe_stacks`. -/
structure PollObs where
  events : List StackEvent
  stackStatus : String
deriving DecidableEq, Repr

/-- The log line for one event:
`f"{ev['ResourceStatus']} {ev['LogicalResourceId']} {reason}".strip()`. -/
def event_msg (ev : StackEvent) : String :=
  pyStrip (ev.resourceStatus ++ " " ++ ev.logicalResourceId ++ " " ++ ev.resourceStatusReason)

/-- The inner `for ev in reversed(events)` loop: skip events whose id is in
`seen`, append the message of each new event, extend `seen`. The argument
list is already reversed by the caller. -/
def process_events (seen : List String) (s : OpState) :
    List StackEvent → List String × OpState
  | [] => (seen, s)
  | ev :: rest =>
    if seen.contains ev.eventId then process_events seen s rest
    else process_events (ev.eventId :: seen) (logAppend s (event_msg ev)) rest

/-- `_poll_stack_events(cf, stack_name, op)` driven by a finite observation
trace: each iteration increments the instrumentation counter, processes the
(reversed) event batch, then classifies the stack status exactly as lines
125-128 do: `status.endswith("COMPLETE")` returns; otherwise
`"FAILED" in status or "ROLLBACK" in status` raises
`Exception(f"{stack_name} {status}")`; otherwise sleep and poll again. -/
def poll_stack_events (stackName : String) :
    List PollObs → List String → OpState → OpState × Outcome Unit
  | [], _, s => (s, Outcome.hang)
  | obs :: rest, seen, s =>
    let pr := process_events seen { s with eventPolls := s.eventPolls + 1 } obs.events.reverse
    if strEndsWith obs.stackStatus "COMPLETE" then (pr.2, Outcome.ok ())
    else if strContains obs.stackStatus "FAILED" || strContains obs.stackStatus "ROLLBACK" then
      (pr.2, Outcome.exc (stackName ++ " " ++ obs.stackStatus))
    else poll_stack_events stackName rest pr.1 pr.2

/-- Remote behaviour backing one `_deploy_stack` call: the outcome of
`describe_stacks` (an `.error` is a `ClientError` with message),
of `update_stack`, of `create_stack`, and the observation trace for
`_poll_stack_events`. -/
structure StackEnv where
  describeOutcome : Except String Unit
  updateOutcome : Except String Unit
  createOutcome : Except String Unit
  polls : List PollObs
deriving Repr

/-- `_deploy_stack(cf, stack_name, template_body, parameters, op)`:
existence check (a `ClientError` containing "does not exist" means absent,
any other `ClientError` propagates); then `update_stack` when it exists (a
`ClientError` containing "No updates are to be performed" logs
`f"No changes for {stack_name}"` and returns) or `create_stack` when it does
not; finally tail events. The template body and parameters do not influence
control flow (the provider's reaction is the environment). -/
def deploy_stack (env : StackEnv) (stackName : String) (_templateBody : String)
    (_parameters : List (String × String)) (s : OpState) : OpState × Outcome Unit :=
  match env.describeOutcome with
  | .error e =>
    if strContains e "does not exist" then
      match env.createOutcome with
      | .error ce => (s, Outcome.exc ce)
      | .ok _ => poll_stack_events stackName env.polls [] s
    else (s, Outcome.exc e)
  | .ok _ =>
    match env.updateOutcome with
    | .error ue =>
      if strContains ue "No updates are to be performed" then
        (logAppend s ("No changes for " ++ stackName), Outcome.ok ())
      else (s, Outcome.exc ue)
    | .ok _ => poll_stack_events stackName env.polls [] s

/-- Remote behaviour backing one `_delete_stack` call. -/
structure DeleteEnv where
  describeOutcome : Except String Unit
  deleteOutcome : Except String Unit
  polls : List PollObs
deriving Repr

/-- `_delete_stack(cf, stack_name, op)`: a `ClientError` containing
"does not exist" on the existence check logs `f"Stack {stack_name} missing"`
and returns; any other `ClientError` propagates; otherwise delete and tail
events. -/
def delete_stack (env : DeleteEnv) (stackName : String) (s : OpState) :
    OpState × Outcome Unit :=
  match env.describeOutcome with
  | .error e =>
    if strContains e "does not exist" then
      (logAppend s ("Stack " ++ stackName ++ " missing"), Outcome.ok ())
    else (s, Outcome.exc e)
  | .ok _ =>
    match env.deleteOutcome with
    | .error de => (s, Outcome.exc de)
    | .ok _ => poll_stack_events stackName env.polls [] s

/-- Python `d[key]` on stack outputs: `KeyError` when absent (modelled as
an exception naming the key). -/
def get_output (outs : List (String × String)) (key : String) : Except String String :=
  match outs.find? (fun p => p.1 == key) with
  | some p => .ok p.2
  | none => .error ("KeyError " ++ key)

/-- Python `d.get(key, default)`. -/
def get_output_default (outs : List (String × String)) (key dflt : String) : String :=
  match outs.find? (fun p => p.1 == key) with
  | some p => p.2
  | none => dflt

/-! ### The deploy runner (`api_deploy.runner`) -/

/-- Remote behaviour backing one whole deploy runner, field per provider
interaction in source order: session/client construction, template file
reads, the four stacks, the three `_get_stack_outputs` calls and the
`get_bootstrap_brokers` call. -/
structure DeployRunnerEnv where
  sessionResult : Except String Unit
  networkTemplate : Except String String
  networkStack : StackEnv
  networkOutputs : Except String (List (String × String))
  mskTemplate : Except String String
  mskStack : StackEnv
  mskOutputs : Except String (List (String × String))
  ec2Template : Except String String
  ec2Stack : StackEnv
  ec2Outputs : Except String (List (String × String))
  ssmTemplate : Except String String
  ssmStack : StackEnv
  brokersCall : Except String (List (String × String))
deriving Repr

/-- The body of `api_deploy.runner` (lines 190-272), before the supervising
`except` clause. Mirrors statement order: log, build network parameters,
read template, reconcile network, progress 25, fetch network outputs, log,
read template, look up the two network keys, reconcile msk, progress 50,
fetch msk outputs, look up the cluster arn, log, read template, look up the
two network keys for ec2, reconcile ec2, progress 75, fetch ec2 outputs,
look up the instance id, log, read template, reconcile ssm, progress 90,
resolve brokers (with default ""), set outputs, log, progress 100,
status SUCCEEDED. -/
def deploy_body (env : DeployRunnerEnv) (stackBase : String) (createNat : Bool)
    (existingTgw : Option String) (s0 : OpState) : OpState × Outcome Unit :=
  match env.sessionResult with
  | .error e => (s0, Outcome.exc e)
  | .ok _ =>
  let s1 := logAppend s0 "Deploying network stack"
  let netParams := [("CreateNAT", if createNat then "true" else "false")] ++
    (match existingTgw with
     | some t => [("ExistingTransitGatewayId", t)]
     | none => [])
  match env.networkTemplate with
  | .error e => (s1, Outcome.exc e)
  | .ok ntb =>
  match deploy_stack env.networkStack (stackBase ++ "-network") ntb netParams s1 with
  | (s2, Outcome.exc e) => (s2, Outcome.exc e)
  | (s2, Outcome.hang) => (s2, Outcome.hang)
  | (s2, Outcome.ok _) =>
  let s3 := setProg s2 25
  match env.networkOutputs with
  | .error e => (s3, Outcome.exc e)
  | .ok netOuts =>
  let s4 := logAppend s3 "Deploying MSK stack"
  match env.mskTemplate with
  | .error e => (s4, Outcome.exc e)
  | .ok mtb =>
  match get_output netOuts "MskSubnetIds" with
  | .error e => (s4, Outcome.exc e)
  | .ok subnetIds =>
  match get_output netOuts "MskSecurityGroupId" with
  | .error e => (s4, Outcome.exc e)
  | .ok sgId =>
  match deploy_stack env.mskStack (stackBase ++ "-msk") mtb
      [("MskSubnetIds", subnetIds), ("MskSecurityGroupId", sgId)] s4 with
  | (s5, Outcome.exc e) => (s5, Outcome.exc e)
  | (s5, Outcome.hang) => (s5, Outcome.hang)
  | (s5, Outcome.ok _) =>
  let s6 := setProg s5 50
  match env.mskOutputs with
  | .error e => (s6, Outcome.exc e)
  | .ok mskOuts =>
  match get_output mskOuts "MskClusterArn" with
  | .error e => (s6, Outcome.exc e)
  | .ok clusterArn =>
  let s7 := logAppend s6 "Deploying EC2 stack"
  match env.ec2Template with
  | .error e => (s7, Outcome.exc e)
  | .ok etb =>
  match get_output netOuts "Ec2SubnetId" with
  | .error e => (s7, Outcome.exc e)
  | .ok ec2Subnet =>
  match get_output netOuts "Ec2SecurityGroupId" with
  | .error e => (s7, Outcome.exc e)
  | .ok ec2Sg =>
  match deploy_stack env.ec2Stack (stackBase ++ "-ec2") etb
      [("Ec2SubnetId", ec2Subnet), ("Ec2SecurityGroupId", ec2Sg),
       ("MskClusterArn", clusterArn)] s7 with
  | (s8, Outcome.exc e) => (s8, Outcome.exc e)
  | (s8, Outcome.hang) => (s8, Outcome.hang)
  | (s8, Outcome.ok _) =>
  let s9 := setProg s8 75
  match env.ec2Outputs with
  | .error e => (s9, Outcome.exc e)
  | .ok ec2Outs =>
  match get_output ec2Outs "Ec2InstanceId" with
  | .error e => (s9, Outcome.exc e)
  | .ok instanceId =>
  let s10 := logAppend s9 "Deploying SSM stack"
  match env.ssmTemplate with
  | .error e => (s10, Outcome.exc e)
  | .ok stb =>
  match deploy_stack env.ssmStack (stackBase ++ "-ssm") stb [] s10 with
  | (s11, Outcome.exc e) => (s11, Outcome.exc e)
  | (s11, Outcome.hang) => (s11, Outcome.hang)
  | (s11, Outcome.ok _) =>
  let s12 := setProg s11 90
  match env.brokersCall with
  | .error e => (s12, Outcome.exc e)
  | .ok brokerOuts =>
  let brokers := get_output_default brokerOuts "BootstrapBrokerStringSaslIam" ""
  let s13 := { s12 with outputs :=
    [("ClusterArn", OutVal.str clusterArn), ("BootstrapBrokers", OutVal.str brokers),
     ("Ec2InstanceId", OutVal.str instanceId)] }
  let s14 := logAppend s13 "Deployment complete"
  let s15 := setProg s14 100
  ({ s15 with status := "SUCCEEDED" }, Outcome.ok ())

/-- The supervising `except Exception` clause shared by all three runners
(lines 273-276, 342-345, 378-381): on an exception append
`f"Error: {exc}"`, record the message as the error, set status FAILED. A
hung loop leaves the state as it was (status still RUNNING). -/
def supervise (r : OpState × Outcome Unit) : OpState :=
  match r with
  | (s, Outcome.ok _) => s
  | (s, Outcome.exc msg) =>
    { s with logs := s.logs ++ ["Error: " ++ msg], error := some msg, status := "FAILED" }
  | (s, Outcome.hang) => s

/-- `api_deploy`: register a fresh operation at time `t` and run the
supervised runner on it. -/
def run_deploy (env : DeployRunnerEnv) (stackBase : String) (createNat : Bool)
    (existingTgw : Option String) (t : ℚ) : OpState :=
  supervise (deploy_body env stackBase createNat existingTgw (initial_operation t))

/-! ### The test runner (`api_test.runner`) -/

/-- One `get_command_invocation` response. -/
structure Invocation where
  status : String
  standardErrorContent : String
  standardOutputContent : String
deriving DecidableEq, Repr

/-- The filtered last-five output lines the source computes on Success:
`[line for line in output.splitlines() if line.strip()][-5:]`. -/
def command_messages (output : String) : List String :=
  last_n 5 ((pySplitlines output).filter (fun l => pyStrip l ≠ ""))

/-- The `while True` invocation-polling loop of `api_test.runner`
(lines 322-337) driven by a finite trace of invocation responses: a status
in Pending/InProgress/Delayed sleeps and polls again; any other non-Success
status raises `StandardErrorContent or status`; Success stores the last
five non-blank output lines and the topic into `op.outputs` and breaks. -/
def poll_invocations (topic : String) :
    List Invocation → OpState → OpState × Outcome Unit
  | [], s => (s, Outcome.hang)
  | inv :: rest, s =>
    if inv.status == "Pending" || inv.status == "InProgress" || inv.status == "Delayed" then
      poll_invocations topic rest s
    else if inv.status != "Success" then
      (s, Outcome.exc (if inv.standardErrorContent == "" then inv.status
                       else inv.standardErrorContent))
    else
      ({ s with outputs := [("messages", OutVal.strs (command_messages inv.standardOutputContent)),
                            ("topic", OutVal.str topic)] }, Outcome.ok ())

/-- Remote behaviour backing one test runner, field per provider
interaction in source order. -/
structure TestRunnerEnv where
  sessionResult : Except String Unit
  mskOutputs : Except String (List (String × String))
  ec2Outputs : Except String (List (String × String))
  brokersCall : Except String (List (String × String))
  sendCommand : Except String String
  invocations : List Invocation
deriving Repr

/-- The body of `api_test.runner` (lines 293-341) before the supervising
`except` clause: build clients, fetch msk and ec2 stack outputs, look up
the cluster arn and instance id, resolve brokers (direct indexing, so a
missing key raises), log, send the command, poll invocations, log,
progress 100, status SUCCEEDED. The shell command string is built from
brokers and topic but is opaque to control flow. -/
def test_body (env : TestRunnerEnv) (topic : String) (s0 : OpState) :
    OpState × Outcome Unit :=
  match env.sessionResult with
  | .error e => (s0, Outcome.exc e)
  | .ok _ =>
  match env.mskOutputs with
  | .error e => (s0, Outcome.exc e)
  | .ok mskOuts =>
  match env.ec2Outputs with
  | .error e => (s0, Outcome.exc e)
  | .ok ec2Outs =>
  match get_output mskOuts "MskClusterArn" with
  | .error e => (s0, Outcome.exc e)
  | .ok _clusterArn =>
  match get_output ec2Outs "Ec2InstanceId" with
  | .error e => (s0, Outcome.exc e)
  | .ok _instanceId =>
  match env.brokersCall with
  | .error e => (s0, Outcome.exc e)
  | .ok brokerOuts =>
  match get_output brokerOuts "BootstrapBrokerStringSaslIam" with
  | .error e => (s0, Outcome.exc e)
  | .ok _brokers =>
  let s1 := logAppend s0 "Running test via SSM"
  match env.sendCommand with
  | .error e => (s1, Outcome.exc e)
  | .ok _cmdId =>
  match poll_invocations topic env.invocations s1 with
  | (s2, Outcome.exc e) => (s2, Outcome.exc e)
  | (s2, Outcome.hang) => (s2, Outcome.hang)
  | (s2, Outcome.ok _) =>
  let s3 := logAppend s2 "Test complete"
  let s4 := setProg s3 100
  ({ s4 with status := "SUCCEEDED" }, Outcome.ok ())

/-- `api_test`: register a fresh operation at time `t` and run the
supervised runner on it. -/
def run_test (env : TestRunnerEnv) (topic : String) (t : ℚ) : OpState :=
  supervise (test_body env topic (initial_operation t))

/-! ### The teardown runner (`api_teardown.runner`) -/

/-- Remote behaviour backing one teardown runner: session construction and,
per stack name, the behaviour of its `_delete_stack` call. -/
structure TeardownEnv where
  sessionResult : Except String Unit
  stackEnvs : String → DeleteEnv

/-- The `steps` list of `api_teardown.runner` (lines 365-370). -/
def teardown_steps (stackBase : String) : List (String × Nat) :=
  [(stackBase ++ "-ssm", 20), (stackBase ++ "-ec2", 50),
   (stackBase ++ "-msk", 80), (stackBase ++ "-network", 95)]

/-- The deploy runner's stage order: the stack names in the order
`api_deploy.runner` reconciles them. -/
def deploy_stage_names (stackBase : String) : List String :=
  [stackBase ++ "-network", stackBase ++ "-msk", stackBase ++ "-ec2",
   stackBase ++ "-ssm"]

/-- The `for name, prog in steps` loop of `api_teardown.runner`
(lines 371-374): log, delete, set progress. -/
def teardown_loop (env : TeardownEnv) :
    List (String × Nat) → OpState → OpState × Outcome Unit
  | [], s => (s, Outcome.ok ())
  | (name, prog) :: rest, s =>
    match delete_stack (env.stackEnvs name) name (logAppend s ("Deleting " ++ name)) with
    | (s2, Outcome.exc e) => (s2, Outcome.exc e)
    | (s2, Outcome.hang) => (s2, Outcome.hang)
    | (s2, Outcome.ok _) => teardown_loop env rest (setProg s2 prog)

/-- The body of `api_teardown.runner` (lines 361-377) before the
supervising `except` clause. -/
def teardown_body (env : TeardownEnv) (stackBase : String) (s0 : OpState) :
    OpState × Outcome Unit :=
  match env.sessionResult with
  | .error e => (s0, Outcome.exc e)
  | .ok _ =>
  match teardown_loop env (teardown_steps stackBase) s0 with
  | (s1, Outcome.exc e) => (s1, Outcome.exc e)
  | (s1, Outcome.hang) => (s1, Outcome.hang)
  | (s1, Outcome.ok _) =>
  let s2 := logAppend s1 "Teardown complete"
  let s3 := setProg s2 100
  ({ s3 with status := "SUCCEEDED" }, Outcome.ok ())

/-- `api_teardown`: register a fresh operation at time `t` and run the
supervised runner on it. -/
def run_teardown (env : TeardownEnv) (stackBase : String) (t : ℚ) : OpState :=
  supervise (teardown_body env stackBase (initial_operation t))

/-! ### Auxiliary definitions used by the proofs: invariant predicates,
result-shape predicates and concrete sample environments -/

/-- All fields except `logs` and `eventPolls` agree. -/
def core_unchanged (s s' : OpState) : Prop :=
  s'.status = s.status ∧ s'.progress = s.progress ∧ s'.outputs = s.outputs ∧
  s'.error = s.error ∧ s'.progressTrace = s.progressTrace ∧ s'.created = s.created

/-- A deploy environment in which everything succeeds on first poll. -/
def happyStackEnv : StackEnv :=
  ⟨.error "Stack does not exist", .ok (), .ok (), [⟨[], "CREATE_COMPLETE"⟩]⟩

/-- A fully successful deploy environment. -/
def happyDeployEnv : DeployRunnerEnv :=
  { sessionResult := .ok ()
    networkTemplate := .ok "ntb"
    networkStack := happyStackEnv
    networkOutputs := .ok [("MskSubnetIds", "sub-1"), ("MskSecurityGroupId", "sg-1"),
                           ("Ec2SubnetId", "sub-2"), ("Ec2SecurityGroupId", "sg-2")]
    mskTemplate := .ok "mtb"
    mskStack := happyStackEnv
    mskOutputs := .ok [("MskClusterArn", "arn-msk")]
    ec2Template := .ok "etb"
    ec2Stack := happyStackEnv
    ec2Outputs := .ok [("Ec2InstanceId", "i-1")]
    ssmTemplate := .ok "stb"
    ssmStack := happyStackEnv
    brokersCall := .ok [("BootstrapBrokerStringSaslIam", "b-1:9098")] }

/-- A teardown environment in which every stack is already gone. -/
def allMissingTeardownEnv : TeardownEnv :=
  { sessionResult := .ok ()
    stackEnvs := fun _ => ⟨.error "Stack does not exist", .ok (), []⟩ }

/-- A test run whose command goes through two polls before succeeding. -/
def happyTestEnv : TestRunnerEnv :=
  { sessionResult := .ok ()
    mskOutputs := .ok [("MskClusterArn", "arn-msk")]
    ec2Outputs := .ok [("Ec2InstanceId", "i-1")]
    brokersCall := .ok [("BootstrapBrokerStringSaslIam", "b-1:9098")]
    sendCommand := .ok "cmd-1"
    invocations := [⟨"InProgress", "", "hello\n"⟩, ⟨"Success", "", "hello\nworld\n"⟩] }

/-- Replay invariant: the collected lines are exactly the first `cursor`
lines of the log, and the cursor never exceeds the log length. -/
def poll_inv (c : PollClient) : Prop :=
  c.collected = c.log.take c.cursor ∧ c.cursor ≤ c.log.length

/-- Shape of a runner body result: on normal return the state carries the
full success milestones, a nonempty outputs dict of `nOuts` entries and no
error; on an exception or a hung poll the state is still RUNNING with no
error, empty outputs and a progress trace among `partials`. -/
def body_ok_spec (r : OpState × Outcome Unit) (fullTrace : List Nat)
    (partials : List (List Nat)) (nOuts : Nat) : Prop :=
  ((∃ u, r.2 = Outcome.ok u) → r.1.status = "SUCCEEDED" ∧ r.1.error = none ∧
     r.1.outputs.length = nOuts ∧ r.1.progress = 100 ∧ r.1.progressTrace = fullTrace)
  ∧ ((¬ ∃ u, r.2 = Outcome.ok u) → r.1.status = "RUNNING" ∧ r.1.error = none ∧
     r.1.outputs = [] ∧ r.1.progressTrace ∈ partials)

/-- Shape of a supervised final state. -/
def runner_cases (fullTrace : List Nat) (partials : List (List Nat)) (nOuts : Nat)
    (s : OpState) : Prop :=
  (s.status = "SUCCEEDED" ∧ s.error = none ∧ s.outputs.length = nOuts ∧
     s.progress = 100 ∧ s.progressTrace = fullTrace)
  ∨ (s.status = "FAILED" ∧ (∃ m, s.error = some m) ∧ s.outputs = [] ∧
     s.progressTrace ∈ partials)
  ∨ (s.status = "RUNNING" ∧ s.error = none ∧ s.outputs = [] ∧
     s.progressTrace ∈ partials)

/-- The progress traces a teardown can have produced when it stops before
the final milestone. -/
def teardown_partials : List (List Nat) :=
  [[0], [0, 20], [0, 20, 50], [0, 20, 50, 80], [0, 20, 50, 80, 95]]

/-- The progress traces a deploy can have produced when it stops before the
final milestone. -/
def deploy_partials : List (List Nat) :=
  [[0], [0, 25], [0, 25, 50], [0, 25, 50, 75], [0, 25, 50, 75, 90]]

/-- Observed progress sequences: start at 0, non-decreasing, within 0-100. -/
def progress_trace_ok (tr : List Nat) : Prop :=
  tr.head? = some 0 ∧ List.Chain' (fun a b => a ≤ b) tr ∧ ∀ p ∈ tr, p ≤ 100

/-- A deploy environment whose session construction fails at once. -/
def failSessionDeployEnv : DeployRunnerEnv :=
  { happyDeployEnv with sessionResult := .error "boom" }

example : strContains "UPDATE_ROLLBACK_COMPLETE" "ROLLBACK" = true := by decide
example : strContains "CREATE_IN_PROGRESS" "FAILED" = false := by decide
example : strEndsWith "UPDATE_ROLLBACK_COMPLETE" "COMPLETE" = true := by decide
example : pyStrip "CREATE_COMPLETE Vpc " = "CREATE_COMPLETE Vpc" := by decide
example : pySplitlines "1\n2\n" = ["1", "2", ""] := by decide
example : last_n 5 ["a", "b"] = ["a", "b"] := by decide
example :
    run_poll [.append "a", .read, .append "b", .append "c", .read] =
      { log := ["a", "b", "c"], cursor := 3, collected := ["a", "b", "c"] } := by
  decide

example :
    poll_stack_events "demo-msk" [⟨[], "CREATE_IN_PROGRESS"⟩, ⟨[], "CREATE_COMPLETE"⟩] []
        (initial_operation 0) =
      ({ initial_operation 0 with eventPolls := 2 }, Outcome.ok ()) := by
  decide

example :
    poll_stack_events "demo-msk" [⟨[], "CREATE_FAILED"⟩] [] (initial_operation 0) =
      ({ initial_operation 0 with eventPolls := 1 }, Outcome.exc "demo-msk CREATE_FAILED") := by
  decide

example :
    poll_stack_events "demo-msk" [⟨[], "UPDATE_ROLLBACK_COMPLETE"⟩] [] (initial_operation 0) =
      ({ initial_operation 0 with eventPolls := 1 }, Outcome.ok ()) := by
  decide

example :
    (poll_stack_events "s"
        [⟨[⟨"e1", "CREATE_COMPLETE", "Vpc", ""⟩], "CREATE_COMPLETE"⟩] []
        (initial_operation 0)).1.logs = ["CREATE_COMPLETE Vpc"] := by
  decide

example :
    deploy_stack ⟨.ok (), .error "No updates are to be performed.", .ok (), [⟨[], "X"⟩]⟩
        "demo-network" "tb" [] (initial_operation 0) =
      (logAppend (initial_operation 0) "No changes for demo-network", Outcome.ok ()) := by
  decide

example :
    delete_stack ⟨.error "Stack with id demo-ssm does not exist", .ok (), []⟩ "demo-ssm"
        (initial_operation 0) =
      (logAppend (initial_operation 0) "Stack demo-ssm missing", Outcome.ok ()) := by
  decide

/-! ### Helper lemmas: which fields each building block can touch

The event-tailing and stack-step functions only ever append log lines and
bump the poll counter; every other field of the operation is untouched.
These lemmas let the runner-level case analyses treat those calls as opaque. -/


lemma core_unchanged_rfl (s : OpState) : core_unchanged s s :=
  ⟨rfl, rfl, rfl, rfl, rfl, rfl⟩

lemma core_unchanged_trans {a b c : OpState} (h1 : core_unchanged a b)
    (h2 : core_unchanged b c) : core_unchanged a c := by
  obtain ⟨x1, x2, x3, x4, x5, x6⟩ := h1
  obtain ⟨y1, y2, y3, y4, y5, y6⟩ := h2
  exact ⟨y1.trans x1, y2.trans x2, y3.trans x3, y4.trans x4, y5.trans x5, y6.trans x6⟩

lemma core_unchanged_logAppend (s : OpState) (l : String) :
    core_unchanged s (logAppend s l) :=
  ⟨rfl, rfl, rfl, rfl, rfl, rfl⟩

lemma core_unchanged_eventPolls (s : OpState) (n : Nat) :
    core_unchanged s { s with eventPolls := n } :=
  ⟨rfl, rfl, rfl, rfl, rfl, rfl⟩

lemma process_events_core (evs : List StackEvent) : ∀ (seen : List String) (s : OpState),
    core_unchanged s (process_events seen s evs).2 := by
  induction evs with
  | nil => intro seen s; exact core_unchanged_rfl s
  | cons ev rest ih =>
    intro seen s
    unfold process_events
    by_cases h : seen.contains ev.eventId = true
    · simp only [h, if_true]
      exact ih seen s
    · simp only [h, if_false, Bool.false_eq_true]
      exact core_unchanged_trans (core_unchanged_logAppend s _) (ih _ _)

lemma poll_stack_events_core (polls : List PollObs) :
    ∀ (name : String) (seen : List String) (s : OpState),
      core_unchanged s (poll_stack_events name polls seen s).1 := by
  induction polls with
  | nil => intro name seen s; exact core_unchanged_rfl s
  | cons obs rest ih =>
    intro name seen s
    unfold poll_stack_events
    have base : core_unchanged s
        (process_events seen { s with eventPolls := s.eventPolls + 1 } obs.events.reverse).2 :=
      core_unchanged_trans (core_unchanged_eventPolls s _) (process_events_core _ _ _)
    by_cases h1 : strEndsWith obs.stackStatus "COMPLETE" = true
    · simp only [h1, if_true]
      exact base
    · by_cases h2 : (strContains obs.stackStatus "FAILED" || strContains obs.stackStatus "ROLLBACK") = true
      · simp only [h1, h2, if_true, if_false, Bool.false_eq_true]
        exact base
      · simp only [h1, h2, if_false, Bool.false_eq_true]
        exact core_unchanged_trans base (ih name _ _)

lemma deploy_stack_core {env : StackEnv} {n tb : String} {ps : List (String × String)}
    {s s' : OpState} {o : Outcome Unit} (h : deploy_stack env n tb ps s = (s', o)) :
    core_unchanged s s' := by
  unfold deploy_stack at h
  rcases hd : env.describeOutcome with e | u
  all_goals rw [hd] at h
  · by_cases hc : strContains e "does not exist" = true
    · simp only [hc, if_true] at h
      rcases hcr : env.createOutcome with ce | cu
      all_goals rw [hcr] at h
      · injection h with h1 h2
        rw [← h1]; exact core_unchanged_rfl s
      · dsimp only at h
        have := poll_stack_events_core env.polls n [] s
        rw [h] at this
        exact this
    · simp only [hc, if_false, Bool.false_eq_true] at h
      injection h with h1 h2
      rw [← h1]; exact core_unchanged_rfl s
  · rcases hu : env.updateOutcome with ue | uu
    all_goals rw [hu] at h
    · by_cases hc : strContains ue "No updates are to be performed" = true
      · simp only [hc, if_true] at h
        injection h with h1 h2
        rw [← h1]; exact core_unchanged_logAppend s _
      · simp only [hc, if_false, Bool.false_eq_true] at h
        injection h with h1 h2
        rw [← h1]; exact core_unchanged_rfl s
    · dsimp only at h
      have := poll_stack_events_core env.polls n [] s
      rw [h] at this
      exact this

lemma delete_stack_core {env : DeleteEnv} {n : String} {s s' : OpState}
    {o : Outcome Unit} (h : delete_stack env n s = (s', o)) : core_unchanged s s' := by
  unfold delete_stack at h
  rcases hd : env.describeOutcome with e | u
  all_goals rw [hd] at h
  · by_cases hc : strContains e "does not exist" = true
    · simp only [hc, if_true] at h
      injection h with h1 h2
      rw [← h1]; exact core_unchanged_logAppend s _
    · simp only [hc, if_false, Bool.false_eq_true] at h
      injection h with h1 h2
      rw [← h1]; exact core_unchanged_rfl s
  · rcases hdel : env.deleteOutcome with de | du
    all_goals rw [hdel] at h
    · injection h with h1 h2
      rw [← h1]; exact core_unchanged_rfl s
    · dsimp only at h
      have := poll_stack_events_core env.polls n [] s
      rw [h] at this
      exact this


example :
    (run_deploy happyDeployEnv "demo" false none 0).status = "SUCCEEDED" ∧
      (run_deploy happyDeployEnv "demo" false none 0).progressTrace =
        [0, 25, 50, 75, 90, 100] ∧
      (run_deploy happyDeployEnv "demo" false none 0).outputs =
        [("ClusterArn", OutVal.str "arn-msk"), ("BootstrapBrokers", OutVal.str "b-1:9098"),
         ("Ec2InstanceId", OutVal.str "i-1")] := by
  decide


example :
    run_teardown allMissingTeardownEnv "demo" 0 =
      { status := "SUCCEEDED", progress := 100
        logs := ["Deleting demo-ssm", "Stack demo-ssm missing",
                 "Deleting demo-ec2", "Stack demo-ec2 missing",
                 "Deleting demo-msk", "Stack demo-msk missing",
                 "Deleting demo-network", "Stack demo-network missing",
                 "Teardown complete"]
        outputs := [], error := none, created := 0
        progressTrace := [0, 20, 50, 80, 95, 100], eventPolls := 0 } := by
  decide


example :
    run_test happyTestEnv "poc-topic" 0 =
      { status := "SUCCEEDED", progress := 100
        logs := ["Running test via SSM", "Test complete"]
        outputs := [("messages", OutVal.strs ["hello", "world"]),
                    ("topic", OutVal.str "poc-topic")]
        error := none, created := 0, progressTrace := [0, 100], eventPolls := 0 } := by
  decide

/-! ### Cursor-pull protocol lemmas (C1, C10) -/


lemma poll_step_inv {c : PollClient} (h : poll_inv c) (e : PollEvent) :
    poll_inv (poll_step c e) := by
  obtain ⟨h1, h2⟩ := h
  cases e with
  | append line =>
    refine ⟨?_, ?_⟩
    · show c.collected = (c.log ++ [line]).take c.cursor
      rw [List.take_append_of_le_length h2]
      exact h1
    · show c.cursor ≤ (c.log ++ [line]).length
      simp only [List.length_append, List.length_cons, List.length_nil]
      omega
  | read =>
    refine ⟨?_, ?_⟩
    · show c.collected ++ ((log_only_op c.log).logs.drop c.cursor) =
        c.log.take (c.cursor + ((log_only_op c.log).logs.drop c.cursor).length)
      simp only [log_only_op, initial_operation]
      rw [List.length_drop]
      have hc : c.cursor + (c.log.length - c.cursor) = c.log.length := by omega
      rw [hc, List.take_length, h1]
      exact List.take_append_drop c.cursor c.log
    · show c.cursor + ((log_only_op c.log).logs.drop c.cursor).length ≤ c.log.length
      simp only [log_only_op, initial_operation]
      rw [List.length_drop]
      omega

lemma run_poll_inv (evs : List PollEvent) : poll_inv (run_poll evs) := by
  have step : ∀ (l : List PollEvent) (c : PollClient), poll_inv c →
      poll_inv (l.foldl poll_step c) := by
    intro l
    induction l with
    | nil => intro c h; exact h
    | cons e rest ih => intro c h; exact ih _ (poll_step_inv h e)
  exact step evs _ ⟨rfl, Nat.le_refl 0⟩

lemma run_poll_append (evs : List PollEvent) (e : PollEvent) :
    run_poll (evs ++ [e]) = poll_step (run_poll evs) e := by
  unfold run_poll
  rw [List.foldl_append]
  rfl

/-- After a trailing read, the concatenation of all returned batches is the
whole log. -/
lemma run_poll_complete (evs : List PollEvent) :
    (run_poll (evs ++ [PollEvent.read])).collected =
      (run_poll (evs ++ [PollEvent.read])).log := by
  rw [run_poll_append]
  obtain ⟨h1, h2⟩ := run_poll_inv evs
  show (run_poll evs).collected ++ ((log_only_op (run_poll evs).log).logs.drop (run_poll evs).cursor) =
    (run_poll evs).log
  simp only [log_only_op, initial_operation]
  rw [h1]
  exact List.take_append_drop _ _

/-! ### Registry eviction lemmas (C9) -/

lemma find_filter_unique (q : String × OpState → Bool) (oid : String) (op : OpState) :
    ∀ (reg : List (String × OpState)),
      (∀ p ∈ reg, p.1 = oid → p.2 = op) →
      reg_get reg oid = some op →
      reg_get (reg.filter q) oid = if q (oid, op) then some op else none := by
  intro reg
  induction reg with
  | nil => intro _ h; simp [reg_get, List.find?] at h
  | cons p rest ih =>
    intro huniq hfind
    by_cases hk : p.1 = oid
    · have hp2 : p.2 = op := huniq p (List.mem_cons_self p rest) hk
      have hpeq : p = (oid, op) := by
        cases p
        simp only at hk hp2
        rw [hk, hp2]
      subst hpeq
      by_cases hq : q (oid, op) = true
      · rw [List.filter_cons_of_pos hq]
        simp [reg_get, List.find?, hq]
      · rw [List.filter_cons_of_neg (by simp [hq])]
        have hnone : (rest.filter q).find? (fun r => r.1 == oid) = none := by
          rw [List.find?_eq_none]
          intro x hx
          obtain ⟨hxr, hxq⟩ := List.mem_filter.mp hx
          intro hbeq
          have hx1 : x.1 = oid := by simpa using hbeq
          have hx2 : x.2 = op := huniq x (List.mem_cons_of_mem _ hxr) hx1
          have hxeq : x = (oid, op) := by
            cases x
            simp only at hx1 hx2
            rw [hx1, hx2]
          rw [hxeq] at hxq
          rw [hxq] at hq
          exact hq rfl
        simp [reg_get, hnone, hq]
    · have hbeq : (p.1 == oid) = false := by simpa using hk
      have hfind' : reg_get rest oid = some op := by
        simpa [reg_get, List.find?_cons, hbeq] using hfind
      have huniq' : ∀ r ∈ rest, r.1 = oid → r.2 = op := fun r hr => huniq r (List.mem_cons_of_mem _ hr)
      by_cases hq : q p = true
      · rw [List.filter_cons_of_pos hq]
        have := ih huniq' hfind'
        simpa [reg_get, List.find?_cons, hbeq] using this
      · rw [List.filter_cons_of_neg (by simp [hq])]
        exact ih huniq' hfind'

/-! ### Invocation-polling lemmas (C4) -/

/-- The command polling loop never appends a log line, never touches
progress, status, error or the poll counter, and sets `outputs` exactly
once, at a Success terminal status, to the last five non-blank output lines
plus the topic. -/
lemma poll_invocations_spec (topic : String) : ∀ (invs : List Invocation) (s : OpState),
    (poll_invocations topic invs s).1.logs = s.logs ∧
    (poll_invocations topic invs s).1.status = s.status ∧
    (poll_invocations topic invs s).1.progress = s.progress ∧
    (poll_invocations topic invs s).1.progressTrace = s.progressTrace ∧
    (poll_invocations topic invs s).1.error = s.error ∧
    (poll_invocations topic invs s).1.eventPolls = s.eventPolls ∧
    (∀ u, (poll_invocations topic invs s).2 = Outcome.ok u →
      ∃ inv ∈ invs, inv.status = "Success" ∧
        (poll_invocations topic invs s).1.outputs =
          [("messages", OutVal.strs (command_messages inv.standardOutputContent)),
           ("topic", OutVal.str topic)]) ∧
    ((∀ u, (poll_invocations topic invs s).2 ≠ Outcome.ok u) →
      (poll_invocations topic invs s).1.outputs = s.outputs) := by
  intro invs
  induction invs with
  | nil =>
    intro s
    refine ⟨rfl, rfl, rfl, rfl, rfl, rfl, ?_, ?_⟩
    · intro u hu
      simp [poll_invocations] at hu
    · intro _
      rfl
  | cons inv rest ih =>
    intro s
    by_cases h1 : (inv.status == "Pending" || inv.status == "InProgress" || inv.status == "Delayed") = true
    · have heq : poll_invocations topic (inv :: rest) s = poll_invocations topic rest s := by
        simp only [poll_invocations, h1, if_true]
      rw [heq]
      obtain ⟨a1, a2, a3, a4, a5, a6, a7, a8⟩ := ih s
      refine ⟨a1, a2, a3, a4, a5, a6, ?_, a8⟩
      intro u hu
      obtain ⟨i, hi, hrest⟩ := a7 u hu
      exact ⟨i, List.mem_cons_of_mem _ hi, hrest⟩
    · by_cases h2 : (inv.status != "Success") = true
      · have heq : poll_invocations topic (inv :: rest) s =
            (s, Outcome.exc (if (inv.standardErrorContent == "") = true then inv.status
                             else inv.standardErrorContent)) := by
          simp only [poll_invocations, h1, h2, if_true, if_false, Bool.false_eq_true]
        rw [heq]
        refine ⟨rfl, rfl, rfl, rfl, rfl, rfl, ?_, ?_⟩
        · intro u hu
          simp at hu
        · intro _
          rfl
      · have hsucc : inv.status = "Success" := by
          simpa using h2
        have heq : poll_invocations topic (inv :: rest) s =
            ({ s with outputs := [("messages", OutVal.strs (command_messages inv.standardOutputContent)),
                                  ("topic", OutVal.str topic)] }, Outcome.ok ()) := by
          simp only [poll_invocations, h1, h2, if_true, if_false, Bool.false_eq_true]
        rw [heq]
        refine ⟨rfl, rfl, rfl, rfl, rfl, rfl, ?_, ?_⟩
        · intro u _
          exact ⟨inv, List.mem_cons_self inv rest, hsucc, rfl⟩
        · intro hne
          exact absurd rfl (hne ())

/-! ### Runner characterizations

The three runner bodies never touch `status` or `error` themselves except
for the final transition to SUCCEEDED; the supervising layer alone writes
FAILED. `body_ok_spec` captures the shape of a body's result, and
`runner_cases` the shape of the supervised final state. -/


lemma body_ok_spec_exc {fullTrace : List Nat} {partials : List (List Nat)} {nOuts : Nat}
    {s : OpState} {m : String} (h1 : s.status = "RUNNING") (h2 : s.error = none)
    (h3 : s.outputs = []) (h4 : s.progressTrace ∈ partials) :
    body_ok_spec (s, Outcome.exc m) fullTrace partials nOuts := by
  constructor
  · rintro ⟨u, hu⟩
    cases hu
  · intro _
    exact ⟨h1, h2, h3, h4⟩

lemma body_ok_spec_hang {fullTrace : List Nat} {partials : List (List Nat)} {nOuts : Nat}
    {s : OpState} (h1 : s.status = "RUNNING") (h2 : s.error = none)
    (h3 : s.outputs = []) (h4 : s.progressTrace ∈ partials) :
    body_ok_spec (s, Outcome.hang) fullTrace partials nOuts := by
  constructor
  · rintro ⟨u, hu⟩
    cases hu
  · intro _
    exact ⟨h1, h2, h3, h4⟩

lemma body_ok_spec_ok {fullTrace : List Nat} {partials : List (List Nat)} {nOuts : Nat}
    {s : OpState} (h1 : s.status = "SUCCEEDED") (h2 : s.error = none)
    (h3 : s.outputs.length = nOuts) (h4 : s.progress = 100)
    (h5 : s.progressTrace = fullTrace) :
    body_ok_spec (s, Outcome.ok ()) fullTrace partials nOuts := by
  constructor
  · intro _
    exact ⟨h1, h2, h3, h4, h5⟩
  · intro hn
    exact absurd ⟨(), rfl⟩ hn

lemma supervise_cases {r : OpState × Outcome Unit} {fullTrace : List Nat}
    {partials : List (List Nat)} {nOuts : Nat}
    (h : body_ok_spec r fullTrace partials nOuts) :
    runner_cases fullTrace partials nOuts (supervise r) := by
  obtain ⟨s, o⟩ := r
  cases o with
  | ok u =>
    left
    exact h.1 ⟨u, rfl⟩
  | exc m =>
    obtain ⟨h1, h2, h3, h4⟩ := h.2 (by rintro ⟨u, hu⟩; cases hu)
    right; left
    exact ⟨rfl, ⟨m, rfl⟩, h3, h4⟩
  | hang =>
    obtain ⟨h1, h2, h3, h4⟩ := h.2 (by rintro ⟨u, hu⟩; cases hu)
    right; right
    exact ⟨h1, h2, h3, h4⟩

/-- Full case characterization of the test runner body. -/
lemma test_body_spec (env : TestRunnerEnv) (topic : String) (t : ℚ) :
    body_ok_spec (test_body env topic (initial_operation t)) [0, 100] [[0]] 2 := by
  obtain ⟨sr, mo, eo, bc, sc, invs⟩ := env
  unfold test_body
  dsimp only
  cases sr with
  | error e =>
    exact body_ok_spec_exc rfl rfl rfl (by simp [initial_operation])
  | ok su =>
  dsimp only
  cases mo with
  | error e =>
    exact body_ok_spec_exc rfl rfl rfl (by simp [initial_operation])
  | ok mouts =>
  dsimp only
  cases eo with
  | error e =>
    exact body_ok_spec_exc rfl rfl rfl (by simp [initial_operation])
  | ok eouts =>
  dsimp only
  rcases hg1 : get_output mouts "MskClusterArn" with e | arn
  · exact body_ok_spec_exc rfl rfl rfl (by simp [initial_operation])
  dsimp only
  rcases hg2 : get_output eouts "Ec2InstanceId" with e | iid
  · exact body_ok_spec_exc rfl rfl rfl (by simp [initial_operation])
  dsimp only
  cases bc with
  | error e =>
    exact body_ok_spec_exc rfl rfl rfl (by simp [initial_operation])
  | ok bouts =>
  dsimp only
  rcases hg3 : get_output bouts "BootstrapBrokerStringSaslIam" with e | brk
  · exact body_ok_spec_exc rfl rfl rfl (by simp [initial_operation])
  dsimp only
  cases sc with
  | error e =>
    exact body_ok_spec_exc rfl rfl rfl (by simp [initial_operation, logAppend])
  | ok cmdId =>
  dsimp only
  rcases hp : poll_invocations topic invs
      (logAppend (initial_operation t) "Running test via SSM") with ⟨s2, o2⟩
  have hspec := poll_invocations_spec topic invs
    (logAppend (initial_operation t) "Running test via SSM")
  rw [hp] at hspec
  obtain ⟨hl, hst, hpr, htr, herr, hev, hok, hnot⟩ := hspec
  cases o2 with
  | exc m =>
    refine body_ok_spec_exc ?_ ?_ ?_ ?_
    · simpa [logAppend, initial_operation] using hst
    · simpa [logAppend, initial_operation] using herr
    · simpa [logAppend, initial_operation] using hnot (by rintro u hu; cases hu)
    · show s2.progressTrace ∈ [[0]]
      rw [htr]
      simp [logAppend, initial_operation]
  | hang =>
    refine body_ok_spec_hang ?_ ?_ ?_ ?_
    · simpa [logAppend, initial_operation] using hst
    · simpa [logAppend, initial_operation] using herr
    · simpa [logAppend, initial_operation] using hnot (by rintro u hu; cases hu)
    · show s2.progressTrace ∈ [[0]]
      rw [htr]
      simp [logAppend, initial_operation]
  | ok u =>
    obtain ⟨inv, hinv, hsucc, houts⟩ := hok u rfl
    refine body_ok_spec_ok rfl ?_ ?_ rfl ?_
    · show (setProg (logAppend s2 "Test complete") 100).error = none
      simp only [setProg, logAppend]
      simpa [logAppend, initial_operation] using herr
    · show (setProg (logAppend s2 "Test complete") 100).outputs.length = 2
      simp only [setProg, logAppend]
      rw [houts]
      rfl
    · show (setProg (logAppend s2 "Test complete") 100).progressTrace = [0, 100]
      simp only [setProg, logAppend]
      rw [htr]
      simp [logAppend, initial_operation]

/-- Full case characterization of the supervised test runner. -/
lemma run_test_cases (env : TestRunnerEnv) (topic : String) (t : ℚ) :
    runner_cases [0, 100] [[0]] 2 (run_test env topic t) :=
  supervise_cases (test_body_spec env topic t)

/-- Full characterization of the teardown loop: it preserves status, error,
outputs and created; its progress trace extends the input by the first
`k` stage milestones for some `k`, with `k` equal to the number of stages
exactly when the loop returns normally. -/
lemma teardown_loop_spec (env : TeardownEnv) : ∀ (steps : List (String × Nat)) (s : OpState),
    (teardown_loop env steps s).1.status = s.status ∧
    (teardown_loop env steps s).1.error = s.error ∧
    (teardown_loop env steps s).1.outputs = s.outputs ∧
    (teardown_loop env steps s).1.created = s.created ∧
    ∃ k, k ≤ steps.length ∧
      (teardown_loop env steps s).1.progressTrace =
        s.progressTrace ++ ((steps.map Prod.snd).take k) ∧
      (∀ u, (teardown_loop env steps s).2 = Outcome.ok u → k = steps.length) := by
  intro steps
  induction steps with
  | nil =>
    intro s
    exact ⟨rfl, rfl, rfl, rfl, 0, Nat.le_refl 0, by simp [teardown_loop], fun u _ => rfl⟩
  | cons st rest ih =>
    intro s
    obtain ⟨name, prog⟩ := st
    rcases hd : delete_stack (env.stackEnvs name) name (logAppend s ("Deleting " ++ name))
      with ⟨s2, o2⟩
    obtain ⟨c1, c2, c3, c4, c5, c6⟩ := delete_stack_core hd
    have b1 : s2.status = s.status := by rw [c1]; rfl
    have b2 : s2.error = s.error := by rw [c4]; rfl
    have b3 : s2.outputs = s.outputs := by rw [c3]; rfl
    have b4 : s2.created = s.created := by rw [c6]; rfl
    have b5 : s2.progressTrace = s.progressTrace := by rw [c5]; rfl
    simp only [teardown_loop, hd]
    cases o2 with
    | exc m =>
      exact ⟨b1, b2, b3, b4, 0, Nat.zero_le _, by simp [b5], fun u hu => by cases hu⟩
    | hang =>
      exact ⟨b1, b2, b3, b4, 0, Nat.zero_le _, by simp [b5], fun u hu => by cases hu⟩
    | ok u0 =>
      obtain ⟨i1, i2, i3, i4, k, hk, htr, hfull⟩ := ih (setProg s2 prog)
      refine ⟨?_, ?_, ?_, ?_, k + 1, ?_, ?_, ?_⟩
      · rw [i1]
        show s2.status = s.status
        exact b1
      · rw [i2]
        show s2.error = s.error
        exact b2
      · rw [i3]
        show s2.outputs = s.outputs
        exact b3
      · rw [i4]
        show s2.created = s.created
        exact b4
      · show k + 1 ≤ rest.length + 1
        exact Nat.succ_le_succ hk
      · rw [htr]
        show (setProg s2 prog).progressTrace ++ (rest.map Prod.snd).take k =
          s.progressTrace ++ ((prog :: rest.map Prod.snd).take (k + 1))
        rw [List.take_succ_cons, setProg, b5]
        simp
      · intro u hu
        show k + 1 = rest.length + 1
        rw [hfull u hu]


lemma teardown_take_mem (k : Nat) (hk : k ≤ 4) :
    ([0] ++ ([20, 50, 80, 95].take k)) ∈ teardown_partials := by
  interval_cases k <;> decide

/-- Full case characterization of the teardown runner body. -/
lemma teardown_body_spec (env : TeardownEnv) (base : String) (t : ℚ) :
    body_ok_spec (teardown_body env base (initial_operation t))
      [0, 20, 50, 80, 95, 100] teardown_partials 0 := by
  obtain ⟨sr, se⟩ := env
  unfold teardown_body
  dsimp only
  cases sr with
  | error e =>
    exact body_ok_spec_exc rfl rfl rfl (by simp [initial_operation, teardown_partials])
  | ok su =>
  dsimp only
  rcases hl : teardown_loop ⟨Except.ok su, se⟩ (teardown_steps base) (initial_operation t)
    with ⟨s1, o1⟩
  have spec := teardown_loop_spec ⟨Except.ok su, se⟩ (teardown_steps base) (initial_operation t)
  rw [hl] at spec
  obtain ⟨p1, p2, p3, p4, k, hk, htr, hfull⟩ := spec
  have hk4 : k ≤ 4 := by simpa [teardown_steps] using hk
  have htr' : s1.progressTrace = [0] ++ ([20, 50, 80, 95].take k) := by
    simpa [teardown_steps, initial_operation] using htr
  cases o1 with
  | exc m =>
    refine body_ok_spec_exc ?_ ?_ ?_ ?_
    · simpa [initial_operation] using p1
    · simpa [initial_operation] using p2
    · simpa [initial_operation] using p3
    · show s1.progressTrace ∈ teardown_partials
      rw [htr']
      exact teardown_take_mem k hk4
  | hang =>
    refine body_ok_spec_hang ?_ ?_ ?_ ?_
    · simpa [initial_operation] using p1
    · simpa [initial_operation] using p2
    · simpa [initial_operation] using p3
    · show s1.progressTrace ∈ teardown_partials
      rw [htr']
      exact teardown_take_mem k hk4
  | ok u0 =>
    have hk' : k = 4 := by simpa [teardown_steps] using hfull u0 rfl
    refine body_ok_spec_ok rfl ?_ ?_ rfl ?_
    · show (setProg (logAppend s1 "Teardown complete") 100).error = none
      simp only [setProg, logAppend]
      simpa [initial_operation] using p2
    · show (setProg (logAppend s1 "Teardown complete") 100).outputs.length = 0
      simp only [setProg, logAppend]
      have : s1.outputs = [] := by simpa [initial_operation] using p3
      simp [this]
    · show (setProg (logAppend s1 "Teardown complete") 100).progressTrace =
        [0, 20, 50, 80, 95, 100]
      simp only [setProg, logAppend]
      rw [htr', hk']
      rfl

/-- Full case characterization of the supervised teardown runner. -/
lemma run_teardown_cases (env : TeardownEnv) (base : String) (t : ℚ) :
    runner_cases [0, 20, 50, 80, 95, 100] teardown_partials 0 (run_teardown env base t) :=
  supervise_cases (teardown_body_spec env base t)


/-- Full case characterization of the deploy runner body. -/
lemma deploy_body_spec (env : DeployRunnerEnv) (base : String) (cn : Bool)
    (tgw : Option String) (t : ℚ) :
    body_ok_spec (deploy_body env base cn tgw (initial_operation t))
      [0, 25, 50, 75, 90, 100] deploy_partials 3 := by
  obtain ⟨sr, ntpl, nstk, nouts, mtpl, mstk, mouts, etpl, estk, eouts, stpl, sstk, brk⟩ := env
  unfold deploy_body
  dsimp only
  cases sr with
  | error e =>
    exact body_ok_spec_exc rfl rfl rfl (by simp [initial_operation, deploy_partials])
  | ok su =>
  dsimp only
  cases ntpl with
  | error e =>
    exact body_ok_spec_exc rfl rfl rfl (by simp [logAppend, initial_operation, deploy_partials])
  | ok ntb =>
  dsimp only
  split
  next a e heqA =>
    obtain ⟨c1, c2, c3, c4, c5, c6⟩ := deploy_stack_core heqA
    simp only [logAppend, initial_operation] at c1 c3 c4 c5
    exact body_ok_spec_exc c1 c4 c3 (by simp [c5, deploy_partials])
  next a heqA =>
    obtain ⟨c1, c2, c3, c4, c5, c6⟩ := deploy_stack_core heqA
    simp only [logAppend, initial_operation] at c1 c3 c4 c5
    exact body_ok_spec_hang c1 c4 c3 (by simp [c5, deploy_partials])
  next a ua heqA =>
  obtain ⟨cA1, cA2, cA3, cA4, cA5, cA6⟩ := deploy_stack_core heqA
  simp only [logAppend, initial_operation] at cA1 cA3 cA4 cA5
  cases nouts with
  | error e =>
    exact body_ok_spec_exc (by simp [setProg, cA1]) (by simp [setProg, cA4])
      (by simp [setProg, cA3]) (by simp [setProg, cA5, deploy_partials])
  | ok netOuts =>
  dsimp only
  cases mtpl with
  | error e =>
    exact body_ok_spec_exc (by simp [logAppend, setProg, cA1]) (by simp [logAppend, setProg, cA4])
      (by simp [logAppend, setProg, cA3]) (by simp [logAppend, setProg, cA5, deploy_partials])
  | ok mtb =>
  dsimp only
  rcases hg1 : get_output netOuts "MskSubnetIds" with e | subnetIds
  · exact body_ok_spec_exc (by simp [logAppend, setProg, cA1]) (by simp [logAppend, setProg, cA4])
      (by simp [logAppend, setProg, cA3]) (by simp [logAppend, setProg, cA5, deploy_partials])
  dsimp only
  rcases hg2 : get_output netOuts "MskSecurityGroupId" with e | sgId
  · exact body_ok_spec_exc (by simp [logAppend, setProg, cA1]) (by simp [logAppend, setProg, cA4])
      (by simp [logAppend, setProg, cA3]) (by simp [logAppend, setProg, cA5, deploy_partials])
  dsimp only
  split
  next b e heqB =>
    obtain ⟨c1, c2, c3, c4, c5, c6⟩ := deploy_stack_core heqB
    simp only [logAppend, setProg] at c1 c3 c4 c5
    refine body_ok_spec_exc ?_ ?_ ?_ ?_
    · rw [c1, cA1]
    · rw [c4, cA4]
    · rw [c3, cA3]
    · rw [c5, cA5]
      simp [deploy_partials]
  next b heqB =>
    obtain ⟨c1, c2, c3, c4, c5, c6⟩ := deploy_stack_core heqB
    simp only [logAppend, setProg] at c1 c3 c4 c5
    refine body_ok_spec_hang ?_ ?_ ?_ ?_
    · rw [c1, cA1]
    · rw [c4, cA4]
    · rw [c3, cA3]
    · rw [c5, cA5]
      simp [deploy_partials]
  next b ub heqB =>
  obtain ⟨cB1, cB2, cB3, cB4, cB5, cB6⟩ := deploy_stack_core heqB
  simp only [logAppend, setProg] at cB1 cB3 cB4 cB5
  have dB1 : b.status = "RUNNING" := by rw [cB1, cA1]
  have dB3 : b.outputs = [] := by rw [cB3, cA3]
  have dB4 : b.error = none := by rw [cB4, cA4]
  have dB5 : b.progressTrace = [0, 25] := by rw [cB5, cA5]; rfl
  cases mouts with
  | error e =>
    exact body_ok_spec_exc (by simp [setProg, dB1]) (by simp [setProg, dB4])
      (by simp [setProg, dB3]) (by simp [setProg, dB5, deploy_partials])
  | ok mskOuts =>
  dsimp only
  rcases hg3 : get_output mskOuts "MskClusterArn" with e | clusterArn
  · exact body_ok_spec_exc (by simp [setProg, dB1]) (by simp [setProg, dB4])
      (by simp [setProg, dB3]) (by simp [setProg, dB5, deploy_partials])
  dsimp only
  cases etpl with
  | error e =>
    exact body_ok_spec_exc (by simp [logAppend, setProg, dB1]) (by simp [logAppend, setProg, dB4])
      (by simp [logAppend, setProg, dB3]) (by simp [logAppend, setProg, dB5, deploy_partials])
  | ok etb =>
  dsimp only
  rcases hg4 : get_output netOuts "Ec2SubnetId" with e | ec2Subnet
  · exact body_ok_spec_exc (by simp [logAppend, setProg, dB1]) (by simp [logAppend, setProg, dB4])
      (by simp [logAppend, setProg, dB3]) (by simp [logAppend, setProg, dB5, deploy_partials])
  dsimp only
  rcases hg5 : get_output netOuts "Ec2SecurityGroupId" with e | ec2Sg
  · exact body_ok_spec_exc (by simp [logAppend, setProg, dB1]) (by simp [logAppend, setProg, dB4])
      (by simp [logAppend, setProg, dB3]) (by simp [logAppend, setProg, dB5, deploy_partials])
  dsimp only
  split
  next c e heqC =>
    obtain ⟨c1, c2, c3, c4, c5, c6⟩ := deploy_stack_core heqC
    simp only [logAppend, setProg] at c1 c3 c4 c5
    refine body_ok_spec_exc ?_ ?_ ?_ ?_
    · rw [c1, dB1]
    · rw [c4, dB4]
    · rw [c3, dB3]
    · rw [c5, dB5]
      simp [deploy_partials]
  next c heqC =>
    obtain ⟨c1, c2, c3, c4, c5, c6⟩ := deploy_stack_core heqC
    simp only [logAppend, setProg] at c1 c3 c4 c5
    refine body_ok_spec_hang ?_ ?_ ?_ ?_
    · rw [c1, dB1]
    · rw [c4, dB4]
    · rw [c3, dB3]
    · rw [c5, dB5]
      simp [deploy_partials]
  next c uc heqC =>
  obtain ⟨cC1, cC2, cC3, cC4, cC5, cC6⟩ := deploy_stack_core heqC
  simp only [logAppend, setProg] at cC1 cC3 cC4 cC5
  have dC1 : c.status = "RUNNING" := by rw [cC1, dB1]
  have dC3 : c.outputs = [] := by rw [cC3, dB3]
  have dC4 : c.error = none := by rw [cC4, dB4]
  have dC5 : c.progressTrace = [0, 25, 50] := by rw [cC5, dB5]; rfl
  cases eouts with
  | error e =>
    exact body_ok_spec_exc (by simp [setProg, dC1]) (by simp [setProg, dC4])
      (by simp [setProg, dC3]) (by simp [setProg, dC5, deploy_partials])
  | ok ec2Outs =>
  dsimp only
  rcases hg6 : get_output ec2Outs "Ec2InstanceId" with e | instanceId
  · exact body_ok_spec_exc (by simp [setProg, dC1]) (by simp [setProg, dC4])
      (by simp [setProg, dC3]) (by simp [setProg, dC5, deploy_partials])
  dsimp only
  cases stpl with
  | error e =>
    exact body_ok_spec_exc (by simp [logAppend, setProg, dC1]) (by simp [logAppend, setProg, dC4])
      (by simp [logAppend, setProg, dC3]) (by simp [logAppend, setProg, dC5, deploy_partials])
  | ok stb =>
  dsimp only
  split
  next d e heqD =>
    obtain ⟨c1, c2, c3, c4, c5, c6⟩ := deploy_stack_core heqD
    simp only [logAppend, setProg] at c1 c3 c4 c5
    refine body_ok_spec_exc ?_ ?_ ?_ ?_
    · rw [c1, dC1]
    · rw [c4, dC4]
    · rw [c3, dC3]
    · rw [c5, dC5]
      simp [deploy_partials]
  next d heqD =>
    obtain ⟨c1, c2, c3, c4, c5, c6⟩ := deploy_stack_core heqD
    simp only [logAppend, setProg] at c1 c3 c4 c5
    refine body_ok_spec_hang ?_ ?_ ?_ ?_
    · rw [c1, dC1]
    · rw [c4, dC4]
    · rw [c3, dC3]
    · rw [c5, dC5]
      simp [deploy_partials]
  next d ud heqD =>
  obtain ⟨cD1, cD2, cD3, cD4, cD5, cD6⟩ := deploy_stack_core heqD
  simp only [logAppend, setProg] at cD1 cD3 cD4 cD5
  have dD1 : d.status = "RUNNING" := by rw [cD1, dC1]
  have dD3 : d.outputs = [] := by rw [cD3, dC3]
  have dD4 : d.error = none := by rw [cD4, dC4]
  have dD5 : d.progressTrace = [0, 25, 50, 75] := by rw [cD5, dC5]; rfl
  cases brk with
  | error e =>
    exact body_ok_spec_exc (by simp [setProg, dD1]) (by simp [setProg, dD4])
      (by simp [setProg, dD3]) (by simp [setProg, dD5, deploy_partials])
  | ok brokerOuts =>
  dsimp only
  refine body_ok_spec_ok rfl ?_ ?_ rfl ?_
  · show (setProg (logAppend _ "Deployment complete") 100).error = none
    simp [setProg, logAppend, dD4]
  · show (setProg (logAppend _ "Deployment complete") 100).outputs.length = 3
    simp [setProg, logAppend]
  · show (setProg (logAppend _ "Deployment complete") 100).progressTrace =
      [0, 25, 50, 75, 90, 100]
    simp [setProg, logAppend, dD5]

/-- Full case characterization of the supervised deploy runner. -/
lemma run_deploy_cases (env : DeployRunnerEnv) (base : String) (cn : Bool)
    (tgw : Option String) (t : ℚ) :
    runner_cases [0, 25, 50, 75, 90, 100] deploy_partials 3
      (run_deploy env base cn tgw t) :=
  supervise_cases (deploy_body_spec env base cn tgw t)

/-! ### Remaining helper lemmas for the claim theorems -/

lemma drop_append_ge {α : Type} : ∀ (l ext : List α) (n : Nat), l.length ≤ n →
    (l ++ ext).drop n = ext.drop (n - l.length) := by
  intro l
  induction l with
  | nil => intro ext n _; simp
  | cons a as ih =>
    intro ext n hn
    cases n with
    | zero => simp at hn
    | succ m =>
      have hm : as.length ≤ m := by simpa using hn
      have : ((a :: as) ++ ext).drop (m + 1) = (as ++ ext).drop m := by simp
      rw [this, ih ext m hm]
      have hlen : m + 1 - (a :: as).length = m - as.length := by
        simp only [List.length_cons]
        omega
      rw [hlen]

/-- When every stack is remotely absent, the teardown loop walks all stages,
logging a Deleting line and a missing line per stage and setting each
milestone. -/
lemma teardown_loop_all_missing (se : String → DeleteEnv)
    (hmiss : ∀ name, ∃ e, (se name).describeOutcome = Except.error e ∧
      strContains e "does not exist" = true) :
    ∀ (steps : List (String × Nat)) (s : OpState),
      teardown_loop ⟨Except.ok (), se⟩ steps s =
        (steps.foldl (fun acc st =>
          setProg (logAppend (logAppend acc ("Deleting " ++ st.1))
            ("Stack " ++ st.1 ++ " missing")) st.2) s, Outcome.ok ()) := by
  intro steps
  induction steps with
  | nil => intro s; rfl
  | cons st rest ih =>
    intro s
    obtain ⟨name, prog⟩ := st
    obtain ⟨e, he, hc⟩ := hmiss name
    have hd : delete_stack (se name) name (logAppend s ("Deleting " ++ name)) =
        (logAppend (logAppend s ("Deleting " ++ name)) ("Stack " ++ name ++ " missing"),
         Outcome.ok ()) := by
      unfold delete_stack
      rw [he]
      simp [hc]
    simp only [teardown_loop, hd]
    rw [ih]
    rfl

lemma runner_cases_terminal {full : List Nat} {partials : List (List Nat)} {n : Nat}
    {s : OpState} (h : runner_cases full partials n s) :
    (s.status = "SUCCEEDED" → s.outputs.length = n ∧ s.error = none) ∧
    (s.status = "FAILED" → s.outputs = [] ∧ s.error ≠ none) := by
  rcases h with ⟨hst, herr, hout, _, _⟩ | ⟨hst, herr, hout, _⟩ | ⟨hst, herr, hout, _⟩
  · refine ⟨fun _ => ⟨hout, herr⟩, fun hf => ?_⟩
    rw [hst] at hf
    exact absurd hf (by decide)
  · refine ⟨fun hsucc => ?_, fun _ => ⟨hout, ?_⟩⟩
    · rw [hst] at hsucc
      exact absurd hsucc (by decide)
    · obtain ⟨m, hm⟩ := herr
      rw [hm]
      exact Option.some_ne_none m
  · refine ⟨fun hsucc => ?_, fun hf => ?_⟩
    · rw [hst] at hsucc
      exact absurd hsucc (by decide)
    · rw [hst] at hf
      exact absurd hf (by decide)


lemma runner_cases_progress {full : List Nat} {partials : List (List Nat)} {n : Nat}
    {s : OpState} (h : runner_cases full partials n s)
    (h1 : progress_trace_ok full) (h2 : full.getLast? = some 100)
    (h3 : ∀ tr ∈ partials, progress_trace_ok tr) :
    progress_trace_ok s.progressTrace ∧
      (s.status = "SUCCEEDED" → s.progress = 100 ∧ s.progressTrace.getLast? = some 100) := by
  rcases h with ⟨hst, _, _, hpr, htr⟩ | ⟨hst, _, _, htr⟩ | ⟨hst, _, _, htr⟩
  · exact ⟨htr ▸ h1, fun _ => ⟨hpr, htr ▸ h2⟩⟩
  · refine ⟨h3 _ htr, fun hs => ?_⟩
    rw [hst] at hs
    exact absurd hs (by decide)
  · refine ⟨h3 _ htr, fun hs => ?_⟩
    rw [hst] at hs
    exact absurd hs (by decide)


/-! ### Claim theorems -/

/-- C1: for `0 <= since <= len(logs)` the read endpoint returns exactly the
log lines from index `since` on (pointwise: the i-th returned line is line
`since + i`) and a cursor equal to `since` plus the number of returned
lines (equal to the current log length); the registry read returns exactly
that response for a present operation; and for any interleaving of appends
with reads that each pass the previous cursor, ending in a read, the
concatenation of the returned batches in call order is the entire log,
with no duplication and no gap. -/
theorem C1_cursor_read_exact_and_complete (op : OpState) (since : Nat)
    (h : since ≤ op.logs.length) :
    ((read_op op since).logs = op.logs.drop since ∧
     (read_op op since).logs.length = op.logs.length - since ∧
     (∀ i : Nat, (read_op op since).logs[i]? = op.logs[since + i]?) ∧
     (read_op op since).cursor = since + (read_op op since).logs.length ∧
     (read_op op since).cursor = op.logs.length) ∧
    (∀ (now : ℚ) (reg : List (String × OpState)) (opId : String),
       reg_get (cleanup_operations now reg) opId = some op →
       api_operation now reg opId since = some (read_op op since)) ∧
    (∀ evs : List PollEvent,
       (run_poll (evs ++ [PollEvent.read])).collected =
         (run_poll (evs ++ [PollEvent.read])).log) := by
  refine ⟨⟨rfl, ?_, ?_, rfl, ?_⟩, ?_, ?_⟩
  · show (op.logs.drop since).length = op.logs.length - since
    simp
  · intro i
    show (op.logs.drop since)[i]? = op.logs[since + i]?
    exact List.getElem?_drop op.logs since i
  · show since + (op.logs.drop since).length = op.logs.length
    rw [List.length_drop]
    omega
  · intro now reg opId hget
    unfold api_operation
    rw [hget]
  · exact run_poll_complete

/-- C1 witness: a concrete read and a concrete interleaving. -/
theorem C1_witness :
    (read_op (log_only_op ["a", "b", "c"]) 1).logs = ["b", "c"] ∧
    (read_op (log_only_op ["a", "b", "c"]) 1).cursor = 3 ∧
    (run_poll ([PollEvent.append "a", PollEvent.read, PollEvent.append "b",
                PollEvent.append "c"] ++ [PollEvent.read])).collected =
      (run_poll ([PollEvent.append "a", PollEvent.read, PollEvent.append "b",
                  PollEvent.append "c"] ++ [PollEvent.read])).log := by
  obtain ⟨⟨h1, _, _, _, h5⟩, _, h3⟩ :=
    C1_cursor_read_exact_and_complete (log_only_op ["a", "b", "c"]) 1 (by decide)
  exact ⟨h1.trans (by decide), h5.trans (by decide), h3 _⟩

/-- C2 counterexample: a teardown in which every stack is already absent
ends SUCCEEDED with empty outputs and null error — a terminal state in
which neither field is populated. -/
theorem C2_counterexample_teardown_success_neither :
    (run_teardown allMissingTeardownEnv "demo" 0).status = "SUCCEEDED" ∧
    (run_teardown allMissingTeardownEnv "demo" 0).outputs = [] ∧
    (run_teardown allMissingTeardownEnv "demo" 0).error = none := by
  decide

/-- C2 amended: a FAILED operation of any of the three kinds has a non-null
error and empty outputs; a SUCCEEDED deploy or test has non-empty outputs
and no error; but a SUCCEEDED teardown has empty outputs and no error, so
exactly-one-populated holds for deploy and test while a successful teardown
populates neither field. -/
theorem C2_terminal_exclusivity_amended :
    (∀ (env : DeployRunnerEnv) (base : String) (cn : Bool) (tgw : Option String) (t : ℚ),
       ((run_deploy env base cn tgw t).status = "SUCCEEDED" →
          (run_deploy env base cn tgw t).outputs ≠ [] ∧
          (run_deploy env base cn tgw t).error = none) ∧
       ((run_deploy env base cn tgw t).status = "FAILED" →
          (run_deploy env base cn tgw t).outputs = [] ∧
          (run_deploy env base cn tgw t).error ≠ none)) ∧
    (∀ (env : TestRunnerEnv) (topic : String) (t : ℚ),
       ((run_test env topic t).status = "SUCCEEDED" →
          (run_test env topic t).outputs ≠ [] ∧ (run_test env topic t).error = none) ∧
       ((run_test env topic t).status = "FAILED" →
          (run_test env topic t).outputs = [] ∧ (run_test env topic t).error ≠ none)) ∧
    (∀ (env : TeardownEnv) (base : String) (t : ℚ),
       ((run_teardown env base t).status = "SUCCEEDED" →
          (run_teardown env base t).outputs = [] ∧ (run_teardown env base t).error = none) ∧
       ((run_teardown env base t).status = "FAILED" →
          (run_teardown env base t).outputs = [] ∧ (run_teardown env base t).error ≠ none)) := by
  refine ⟨?_, ?_, ?_⟩
  · intro env base cn tgw t
    obtain ⟨hsucc, hfail⟩ := runner_cases_terminal (run_deploy_cases env base cn tgw t)
    refine ⟨fun hs => ?_, hfail⟩
    obtain ⟨hlen, herr⟩ := hsucc hs
    refine ⟨fun hnil => ?_, herr⟩
    rw [hnil] at hlen
    exact absurd hlen (by decide)
  · intro env topic t
    obtain ⟨hsucc, hfail⟩ := runner_cases_terminal (run_test_cases env topic t)
    refine ⟨fun hs => ?_, hfail⟩
    obtain ⟨hlen, herr⟩ := hsucc hs
    refine ⟨fun hnil => ?_, herr⟩
    rw [hnil] at hlen
    exact absurd hlen (by decide)
  · intro env base t
    obtain ⟨hsucc, hfail⟩ := runner_cases_terminal (run_teardown_cases env base t)
    refine ⟨fun hs => ?_, hfail⟩
    obtain ⟨hlen, herr⟩ := hsucc hs
    exact ⟨List.length_eq_zero.mp hlen, herr⟩

/-- C2 amended witness: a fully successful deploy has non-empty outputs and
no error. -/
theorem C2_amended_witness :
    (run_deploy happyDeployEnv "demo" false none 0).outputs ≠ [] ∧
    (run_deploy happyDeployEnv "demo" false none 0).error = none :=
  (C2_terminal_exclusivity_amended.1 happyDeployEnv "demo" false none 0).1 (by decide)

/-- C3 counterexample: UPDATE_ROLLBACK_COMPLETE contains "ROLLBACK" yet the
loop classifies it SUCCESS (the endswith-COMPLETE test runs first), and a
FAILED status raises with the stack name prepended, not the raw status
alone. -/
theorem C3_counterexample_rollback_complete :
    strContains "UPDATE_ROLLBACK_COMPLETE" "ROLLBACK" = true ∧
    (poll_stack_events "demo-msk" [⟨[], "UPDATE_ROLLBACK_COMPLETE"⟩] []
       (initial_operation 0)).2 = Outcome.ok () ∧
    strContains "CREATE_FAILED" "FAILED" = true ∧
    (poll_stack_events "demo-msk" [⟨[], "CREATE_FAILED"⟩] [] (initial_operation 0)).2 =
      Outcome.exc "demo-msk CREATE_FAILED" ∧
    "demo-msk CREATE_FAILED" ≠ "CREATE_FAILED" := by
  decide

/-- C3 amended: each tailing iteration first checks endswith COMPLETE and
classifies SUCCESS (even when the status contains ROLLBACK or FAILED);
among the remaining statuses, one containing FAILED or ROLLBACK classifies
FAILURE, raising an exception whose message is the stack name followed by
the raw status; any other status continues polling. -/
theorem C3_terminal_classification_amended (name : String) (obs : PollObs)
    (rest : List PollObs) (seen : List String) (s : OpState) :
    (strEndsWith obs.stackStatus "COMPLETE" = true →
       poll_stack_events name (obs :: rest) seen s =
         ((process_events seen { s with eventPolls := s.eventPolls + 1 } obs.events.reverse).2,
          Outcome.ok ())) ∧
    (strEndsWith obs.stackStatus "COMPLETE" = false →
     (strContains obs.stackStatus "FAILED" || strContains obs.stackStatus "ROLLBACK") = true →
       poll_stack_events name (obs :: rest) seen s =
         ((process_events seen { s with eventPolls := s.eventPolls + 1 } obs.events.reverse).2,
          Outcome.exc (name ++ " " ++ obs.stackStatus))) ∧
    (strEndsWith obs.stackStatus "COMPLETE" = false →
     (strContains obs.stackStatus "FAILED" || strContains obs.stackStatus "ROLLBACK") = false →
       poll_stack_events name (obs :: rest) seen s =
         poll_stack_events name rest
           (process_events seen { s with eventPolls := s.eventPolls + 1 } obs.events.reverse).1
           (process_events seen { s with eventPolls := s.eventPolls + 1 } obs.events.reverse).2) := by
  refine ⟨?_, ?_, ?_⟩
  · intro h1
    simp only [poll_stack_events, h1, if_true]
  · intro h1 h2
    simp only [poll_stack_events, h1, h2, if_true, if_false, Bool.false_eq_true]
  · intro h1 h2
    simp only [poll_stack_events, h1, h2, if_false, Bool.false_eq_true]

/-- C3 amended witness: a CREATE_FAILED status terminates the loop at that
poll with the composed failure message. -/
theorem C3_amended_witness :
    poll_stack_events "demo-msk" [⟨[], "CREATE_FAILED"⟩, ⟨[], "CREATE_COMPLETE"⟩] []
      (initial_operation 0) =
      ({ initial_operation 0 with eventPolls := 1 }, Outcome.exc "demo-msk CREATE_FAILED") := by
  have h := (C3_terminal_classification_amended "demo-msk" ⟨[], "CREATE_FAILED"⟩
    [⟨[], "CREATE_COMPLETE"⟩] [] (initial_operation 0)).2.1 (by decide) (by decide)
  exact h.trans (by decide)

/-- C4 counterexample: a run whose command emits the line "hello" (visible
in the stdout of both polls) never surfaces it as a log entry: the final
log is just the two fixed lines, although the run succeeded and captured
"hello" in outputs. The log is append-only, so absence in the final log
means the line was never appended during polling. -/
theorem C4_counterexample_no_incremental_output :
    "hello" ∈ command_messages "hello\nworld\n" ∧
    (happyTestEnv.invocations.map Invocation.standardOutputContent) =
      ["hello\n", "hello\nworld\n"] ∧
    (run_test happyTestEnv "poc-topic" 0).status = "SUCCEEDED" ∧
    (run_test happyTestEnv "poc-topic" 0).logs = ["Running test via SSM", "Test complete"] ∧
    "hello" ∉ (run_test happyTestEnv "poc-topic" 0).logs := by
  decide

/-- C4 amended: the invocation-polling loop inspects only the invocation
status and appends no log lines at all (there is no byte-length diffing);
command output is consumed exactly once, at a terminal Success, where the
last five non-blank output lines are stored in the operation's outputs
together with the topic. -/
theorem C4_polling_surfaces_no_lines_amended (topic : String) (invs : List Invocation)
    (s : OpState) :
    (poll_invocations topic invs s).1.logs = s.logs ∧
    (∀ u, (poll_invocations topic invs s).2 = Outcome.ok u →
       ∃ inv ∈ invs, inv.status = "Success" ∧
         (poll_invocations topic invs s).1.outputs =
           [("messages", OutVal.strs (command_messages inv.standardOutputContent)),
            ("topic", OutVal.str topic)]) := by
  obtain ⟨h1, _, _, _, _, _, h7, _⟩ := poll_invocations_spec topic invs s
  exact ⟨h1, h7⟩

/-- C4 amended witness: two polls, the second Success. -/
theorem C4_amended_witness :
    (poll_invocations "poc-topic"
       [⟨"InProgress", "", "hello\n"⟩, ⟨"Success", "", "hello\nworld\n"⟩]
       (initial_operation 0)).1.logs = [] ∧
    ∃ inv ∈ [(⟨"InProgress", "", "hello\n"⟩ : Invocation),
             ⟨"Success", "", "hello\nworld\n"⟩], inv.status = "Success" ∧
      (poll_invocations "poc-topic"
         [⟨"InProgress", "", "hello\n"⟩, ⟨"Success", "", "hello\nworld\n"⟩]
         (initial_operation 0)).1.outputs =
        [("messages", OutVal.strs (command_messages inv.standardOutputContent)),
         ("topic", OutVal.str "poc-topic")] := by
  obtain ⟨h1, h2⟩ := C4_polling_surfaces_no_lines_amended "poc-topic"
    [⟨"InProgress", "", "hello\n"⟩, ⟨"Success", "", "hello\nworld\n"⟩] (initial_operation 0)
  exact ⟨h1.trans (by decide), h2 () (by decide)⟩

/-- C5: in each of the three runners, an exception raised anywhere in the
body is caught by the supervising layer, which appends a final log line
`Error: <message>`, records the message as the operation's error and sets
the status to FAILED. -/
theorem C5_supervisor_records_all_exceptions :
    (∀ (env : DeployRunnerEnv) (base : String) (cn : Bool) (tgw : Option String) (t : ℚ)
       (s1 : OpState) (msg : String),
       deploy_body env base cn tgw (initial_operation t) = (s1, Outcome.exc msg) →
       run_deploy env base cn tgw t =
         { s1 with logs := s1.logs ++ ["Error: " ++ msg], error := some msg,
                   status := "FAILED" } ∧
       (run_deploy env base cn tgw t).logs.getLast? = some ("Error: " ++ msg)) ∧
    (∀ (env : TestRunnerEnv) (topic : String) (t : ℚ) (s1 : OpState) (msg : String),
       test_body env topic (initial_operation t) = (s1, Outcome.exc msg) →
       run_test env topic t =
         { s1 with logs := s1.logs ++ ["Error: " ++ msg], error := some msg,
                   status := "FAILED" } ∧
       (run_test env topic t).logs.getLast? = some ("Error: " ++ msg)) ∧
    (∀ (env : TeardownEnv) (base : String) (t : ℚ) (s1 : OpState) (msg : String),
       teardown_body env base (initial_operation t) = (s1, Outcome.exc msg) →
       run_teardown env base t =
         { s1 with logs := s1.logs ++ ["Error: " ++ msg], error := some msg,
                   status := "FAILED" } ∧
       (run_teardown env base t).logs.getLast? = some ("Error: " ++ msg)) := by
  refine ⟨?_, ?_, ?_⟩
  · intro env base cn tgw t s1 msg h
    have heq : run_deploy env base cn tgw t =
        { s1 with logs := s1.logs ++ ["Error: " ++ msg], error := some msg,
                  status := "FAILED" } := by
      unfold run_deploy
      rw [h]
      rfl
    refine ⟨heq, ?_⟩
    rw [heq]
    simp
  · intro env topic t s1 msg h
    have heq : run_test env topic t =
        { s1 with logs := s1.logs ++ ["Error: " ++ msg], error := some msg,
                  status := "FAILED" } := by
      unfold run_test
      rw [h]
      rfl
    refine ⟨heq, ?_⟩
    rw [heq]
    simp
  · intro env base t s1 msg h
    have heq : run_teardown env base t =
        { s1 with logs := s1.logs ++ ["Error: " ++ msg], error := some msg,
                  status := "FAILED" } := by
      unfold run_teardown
      rw [h]
      rfl
    refine ⟨heq, ?_⟩
    rw [heq]
    simp

/-- C5 witness: a deploy whose session construction raises "boom" ends
FAILED with the error recorded and the final log line "Error: boom". -/
theorem C5_witness :
    run_deploy failSessionDeployEnv "demo" false none 0 =
      { initial_operation 0 with
          logs := ["Error: boom"], error := some "boom", status := "FAILED" } := by
  have h := (C5_supervisor_records_all_exceptions.1 failSessionDeployEnv "demo" false none 0
    (initial_operation 0) "boom" (by decide)).1
  exact h.trans (by decide)

/-- C6: teardown's stage list is exactly the reverse of the deploy stage
order (ssm, ec2, msk, network versus network, msk, ec2, ssm); a stack that
does not exist remotely makes `_delete_stack` log a skip line and return
normally; and a teardown over four missing stacks walks all four stages in
that order and succeeds. -/
theorem C6_reverse_teardown_order_and_skip :
    (∀ base : String,
       (teardown_steps base).map Prod.fst = (deploy_stage_names base).reverse) ∧
    (∀ (env : DeleteEnv) (name : String) (s : OpState) (e : String),
       env.describeOutcome = Except.error e → strContains e "does not exist" = true →
       delete_stack env name s =
         (logAppend s ("Stack " ++ name ++ " missing"), Outcome.ok ())) ∧
    (∀ (se : String → DeleteEnv) (base : String) (t : ℚ),
       (∀ name, ∃ e, (se name).describeOutcome = Except.error e ∧
          strContains e "does not exist" = true) →
       (run_teardown ⟨Except.ok (), se⟩ base t).status = "SUCCEEDED" ∧
       (run_teardown ⟨Except.ok (), se⟩ base t).logs =
         ["Deleting " ++ (base ++ "-ssm"), "Stack " ++ (base ++ "-ssm") ++ " missing",
          "Deleting " ++ (base ++ "-ec2"), "Stack " ++ (base ++ "-ec2") ++ " missing",
          "Deleting " ++ (base ++ "-msk"), "Stack " ++ (base ++ "-msk") ++ " missing",
          "Deleting " ++ (base ++ "-network"), "Stack " ++ (base ++ "-network") ++ " missing",
          "Teardown complete"]) := by
  refine ⟨?_, ?_, ?_⟩
  · intro base
    rfl
  · intro env name s e hd hc
    unfold delete_stack
    rw [hd]
    simp [hc]
  · intro se base t h
    have hloop := teardown_loop_all_missing se h (teardown_steps base) (initial_operation t)
    unfold run_teardown teardown_body
    dsimp only
    rw [hloop]
    dsimp only [supervise]
    refine ⟨rfl, ?_⟩
    simp [teardown_steps, logAppend, setProg, initial_operation]

/-- C6 witness: a concrete all-missing teardown. -/
theorem C6_witness :
    (run_teardown ⟨Except.ok (),
       fun _ => ⟨Except.error "Stack does not exist", Except.ok (), []⟩⟩ "demo" 0).status =
      "SUCCEEDED" ∧
    (run_teardown ⟨Except.ok (),
       fun _ => ⟨Except.error "Stack does not exist", Except.ok (), []⟩⟩ "demo" 0).logs =
      ["Deleting demo-ssm", "Stack demo-ssm missing",
       "Deleting demo-ec2", "Stack demo-ec2 missing",
       "Deleting demo-msk", "Stack demo-msk missing",
       "Deleting demo-network", "Stack demo-network missing",
       "Teardown complete"] := by
  have h := C6_reverse_teardown_order_and_skip.2.2
    (fun _ => ⟨Except.error "Stack does not exist", Except.ok (), []⟩) "demo" 0
    (fun name => ⟨"Stack does not exist", rfl, by decide⟩)
  exact ⟨h.1, h.2.trans (by decide)⟩

/-- C7: reconciling an existing stack whose update reports nothing to do
appends exactly the one line `No changes for <name>`, performs no event
poll at all and returns success immediately — for any event feed the
environment might carry. -/
theorem C7_no_change_single_log_no_polls (env : StackEnv) (name tb : String)
    (ps : List (String × String)) (s : OpState) (m : String)
    (hd : env.describeOutcome = Except.ok ())
    (hu : env.updateOutcome = Except.error m)
    (hc : strContains m "No updates are to be performed" = true) :
    deploy_stack env name tb ps s =
      (logAppend s ("No changes for " ++ name), Outcome.ok ()) ∧
    (deploy_stack env name tb ps s).1.logs = s.logs ++ ["No changes for " ++ name] ∧
    (deploy_stack env name tb ps s).1.eventPolls = s.eventPolls := by
  have h : deploy_stack env name tb ps s =
      (logAppend s ("No changes for " ++ name), Outcome.ok ()) := by
    unfold deploy_stack
    rw [hd, hu]
    simp [hc]
  exact ⟨h, by rw [h]; rfl, by rw [h]; rfl⟩

/-- C7 witness: a no-change update with a non-empty pending event feed. -/
theorem C7_witness :
    deploy_stack ⟨Except.ok (), Except.error "No updates are to be performed.",
        Except.ok (), [⟨[], "UPDATE_IN_PROGRESS"⟩]⟩ "demo-network" "tb" []
        (initial_operation 0) =
      (logAppend (initial_operation 0) "No changes for demo-network", Outcome.ok ()) :=
  (C7_no_change_single_log_no_polls _ "demo-network" "tb" [] (initial_operation 0)
    "No updates are to be performed." rfl rfl (by decide)).1

/-- C8: in every run of each of the three runners, the sequence of values
taken by `progress` starts at 0, is non-decreasing, stays within 0-100,
and is 100 exactly when the operation transitions to SUCCEEDED (the final
progress equals 100 and is the last value written). -/
theorem C8_monotonic_progress :
    (∀ (env : DeployRunnerEnv) (base : String) (cn : Bool) (tgw : Option String) (t : ℚ),
       progress_trace_ok (run_deploy env base cn tgw t).progressTrace ∧
       ((run_deploy env base cn tgw t).status = "SUCCEEDED" →
          (run_deploy env base cn tgw t).progress = 100 ∧
          (run_deploy env base cn tgw t).progressTrace.getLast? = some 100)) ∧
    (∀ (env : TestRunnerEnv) (topic : String) (t : ℚ),
       progress_trace_ok (run_test env topic t).progressTrace ∧
       ((run_test env topic t).status = "SUCCEEDED" →
          (run_test env topic t).progress = 100 ∧
          (run_test env topic t).progressTrace.getLast? = some 100)) ∧
    (∀ (env : TeardownEnv) (base : String) (t : ℚ),
       progress_trace_ok (run_teardown env base t).progressTrace ∧
       ((run_teardown env base t).status = "SUCCEEDED" →
          (run_teardown env base t).progress = 100 ∧
          (run_teardown env base t).progressTrace.getLast? = some 100)) := by
  refine ⟨?_, ?_, ?_⟩
  · intro env base cn tgw t
    exact runner_cases_progress (run_deploy_cases env base cn tgw t)
      (by norm_num [progress_trace_ok, List.chain'_cons]) (by decide)
      (by norm_num [progress_trace_ok, deploy_partials, List.chain'_cons])
  · intro env topic t
    exact runner_cases_progress (run_test_cases env topic t)
      (by norm_num [progress_trace_ok, List.chain'_cons]) (by decide)
      (by norm_num [progress_trace_ok, List.chain'_cons])
  · intro env base t
    exact runner_cases_progress (run_teardown_cases env base t)
      (by norm_num [progress_trace_ok, List.chain'_cons]) (by decide)
      (by norm_num [progress_trace_ok, teardown_partials, List.chain'_cons])

/-- C8 witness: the happy deploy ends at progress 100 with a well-formed
trace. -/
theorem C8_witness :
    progress_trace_ok (run_deploy happyDeployEnv "demo" false none 0).progressTrace ∧
    (run_deploy happyDeployEnv "demo" false none 0).progress = 100 := by
  obtain ⟨h1, h2⟩ := C8_monotonic_progress.1 happyDeployEnv "demo" false none 0
  exact ⟨h1, (h2 (by decide)).1⟩

/-- C9: with operations swept before every get, an operation created at T
is absent (404) from a get strictly later than T plus the 30-minute TTL,
and present — with its normal read response — at or before that bound. -/
theorem C9_ttl_eviction (reg : List (String × OpState)) (oid : String) (op : OpState)
    (since : Nat) (now : ℚ) (hget : reg_get reg oid = some op)
    (huniq : ∀ p ∈ reg, p.1 = oid → p.2 = op) :
    (op.created + TTL_SECONDS < now → api_operation now reg oid since = none) ∧
    (now ≤ op.created + TTL_SECONDS →
       api_operation now reg oid since = some (read_op op since)) := by
  have hff := find_filter_unique (fun p => decide (now - p.2.created ≤ TTL_SECONDS))
    oid op reg huniq hget
  constructor
  · intro hexp
    have hq : (decide (now - op.created ≤ TTL_SECONDS)) = false := by
      rw [decide_eq_false_iff_not]
      intro hle
      linarith
    have hcond : ¬((fun p => decide (now - p.2.created ≤ TTL_SECONDS))
        ((oid, op) : String × OpState) = true) := by
      show ¬(decide (now - op.created ≤ TTL_SECONDS) = true)
      rw [hq]
      simp
    unfold api_operation cleanup_operations
    rw [hff, if_neg hcond]
  · intro hfresh
    have hq : (decide (now - op.created ≤ TTL_SECONDS)) = true := by
      rw [decide_eq_true_eq]
      linarith
    have hcond : ((fun p => decide (now - p.2.created ≤ TTL_SECONDS))
        ((oid, op) : String × OpState) = true) := by
      show decide (now - op.created ≤ TTL_SECONDS) = true
      exact hq
    unfold api_operation cleanup_operations
    rw [hff, if_pos hcond]

/-- C9 witness: one operation created at time 0; TTL is 1800 seconds; a get
at 1801 misses, a get at 1800 hits. -/
theorem C9_witness :
    api_operation 1801 [("op1", log_only_op ["x"])] "op1" 0 = none ∧
    api_operation 1800 [("op1", log_only_op ["x"])] "op1" 0 =
      some (read_op (log_only_op ["x"]) 0) := by
  refine ⟨?_, ?_⟩
  · refine (C9_ttl_eviction [("op1", log_only_op ["x"])] "op1" (log_only_op ["x"]) 0 1801
      rfl (fun p hp _ => by rw [List.mem_singleton.mp hp]) ).1 ?_
    show (log_only_op ["x"]).created + TTL_SECONDS < 1801
    norm_num [log_only_op, initial_operation, TTL_SECONDS]
  · refine (C9_ttl_eviction [("op1", log_only_op ["x"])] "op1" (log_only_op ["x"]) 0 1800
      rfl (fun p hp _ => by rw [List.mem_singleton.mp hp]) ).2 ?_
    show (1800 : ℚ) ≤ (log_only_op ["x"]).created + TTL_SECONDS
    norm_num [log_only_op, initial_operation, TTL_SECONDS]

/-- C10: a cursor strictly beyond the current log length makes the read
endpoint return no lines and echo the cursor back unchanged — it is never
clamped to the log length — and the lines a too-large cursor skipped over
are never redelivered: any later read with the same cursor only sees lines
appended past that position. -/
theorem C10_cursor_overshoot_unclamped (op : OpState) (since : Nat)
    (h : op.logs.length < since) :
    (read_op op since).logs = [] ∧
    (read_op op since).cursor = since ∧
    (∀ ext : List String,
       (read_op { op with logs := op.logs ++ ext } since).logs =
         ext.drop (since - op.logs.length)) := by
  have hle : op.logs.length ≤ since := Nat.le_of_lt h
  have hdrop : op.logs.drop since = [] := List.drop_eq_nil_of_le hle
  refine ⟨hdrop, ?_, ?_⟩
  · show since + (op.logs.drop since).length = since
    rw [hdrop]
    rfl
  · intro ext
    show (op.logs ++ ext).drop since = ext.drop (since - op.logs.length)
    exact drop_append_ge op.logs ext since hle

/-- C10 witness: a log of two lines read with cursor 5, then after four
more lines the same cursor yields only the line past position 5. -/
theorem C10_witness :
    (read_op (log_only_op ["a", "b"]) 5).logs = [] ∧
    (read_op (log_only_op ["a", "b"]) 5).cursor = 5 ∧
    (read_op { log_only_op ["a", "b"] with
        logs := (log_only_op ["a", "b"]).logs ++ ["c", "d", "e", "f"] } 5).logs = ["f"] := by
  obtain ⟨h1, h2, h3⟩ := C10_cursor_overshoot_unclamped (log_only_op ["a", "b"]) 5 (by decide)
  exact ⟨h1, h2, (h3 ["c", "d", "e", "f"]).trans (by decide)⟩
